import Mathlib

/-!
Shallow embedding of the Equi7Grid tiling/indexing engine
(src/equi7grid/equi7grid.py) and proofs about its tile-name codec,
sampling/tile-class resolver, family-tile resolver and pixel indexer.

Python strings are embedded as lists of characters (`PyStr`); Python
exceptions (`ValueError`, `IndexError`, failed `int()` conversions, ...)
are embedded as `none` of an `Option` result.
-/

abbrev PyStr := List Char

/-- Embedding of Python `int(c)` for a single character: a decimal digit
character yields its value, anything else raises (`none`). -/
def charDigit? (c : Char) : Option Nat :=
  if c.isDigit then some (c.toNat - 48) else none

/-- Embedding of Python `int(s)` on the strings this module feeds to it:
an optional minus sign followed by at least one decimal digit. -/
def pyInt? (s : PyStr) : Option Int :=
  if s.headD ' ' = '-' then
    if s.drop 1 ≠ [] ∧ (s.drop 1).all Char.isDigit then
      some (-(((s.drop 1).foldl (fun a c => 10 * a + (c.toNat - 48)) 0 : Nat) : Int))
    else none
  else if s ≠ [] ∧ s.all Char.isDigit then
    some (((s.foldl (fun a c => 10 * a + (c.toNat - 48)) 0 : Nat) : Int))
  else none

/-- Embedding of Python `str.split(sep)` for a one-character separator:
splits at every occurrence, keeping empty pieces, never returning an
empty list. -/
def splitOnChar (c : Char) : PyStr → List PyStr
  | [] => [[]]
  | x :: xs =>
      if x = c then [] :: splitOnChar c xs
      else
        match splitOnChar c xs with
        | [] => [[x]]
        | h :: t => (x :: h) :: t

/-- Decimal representation of a natural number, i.e. Python `str(n)` for
`n ≥ 0`; written out digit-by-digit for `n < 10000`, the range arising in
this grid (samplings are at most 6000 and well-formed coordinate fields at
most 999), and delegating to the library beyond it. -/
def decimalDigits (n : Nat) : PyStr :=
  if n < 10 then [Nat.digitChar n]
  else if n < 100 then [Nat.digitChar (n / 10), Nat.digitChar (n % 10)]
  else if n < 1000 then
    [Nat.digitChar (n / 100), Nat.digitChar (n / 10 % 10), Nat.digitChar (n % 10)]
  else if n < 10000 then
    [Nat.digitChar (n / 1000), Nat.digitChar (n / 100 % 10),
     Nat.digitChar (n / 10 % 10), Nat.digitChar (n % 10)]
  else Nat.toDigits 10 n

/-- Embedding of Python `str.rjust(3, '0')`. -/
def rjust3 (s : PyStr) : PyStr := List.replicate (3 - s.length) '0' ++ s

/-- Embedding of the Python format item `{:03d}` applied to an integer. -/
def pyFormat03d (n : Int) : PyStr :=
  if 0 ≤ n then rjust3 (decimalDigits n.toNat)
  else
    '-' :: (List.replicate (2 - (decimalDigits (-n).toNat).length) '0'
            ++ decimalDigits (-n).toNat)

/-- Embedding of the Python string comparison `a < b` (lexicographic by
code point). -/
def pyStrLt : PyStr → PyStr → Bool
  | [], [] => false
  | [], _ :: _ => true
  | _ :: _, [] => false
  | a :: as, b :: bs => if a < b then true else if b < a then false else pyStrLt as bs

/-- Embedding of the Python string comparison `a >= b`. -/
def pyStrGe (a b : PyStr) : Bool := ! pyStrLt a b

/-- Source: `Equi7Grid._static_sampling` — all allowed grid samplings. -/
def _static_sampling : List Nat :=
  [6000, 3000, 1000, 800, 750, 600, 500, 400, 300, 250, 200, 150, 125, 100, 96, 80,
   75, 64, 60, 50, 48, 40, 32, 30, 25, 24, 20, 16, 10, 8, 5, 4, 2, 1]

/-- Source: `Equi7Grid._static_tilecodes`. -/
def _static_tilecodes : List PyStr := [['T', '6'], ['T', '3'], ['T', '1']]

/-- Source: `Equi7Grid.get_tiletype` (explicit-sampling branch).
Python evaluates `sampling in range(lo, hi)` before `% sampling`, so the
modulus is never taken at a non-positive sampling; the three guarded
branches and the final `raise ValueError` (`none`) are kept verbatim. -/
def get_tiletype (sampling : Int) : Option PyStr :=
  if 64 ≤ sampling ∧ sampling ≤ 6000 ∧ (600000 : Int) % sampling = 0 then
    some ['T', '6']
  else if 20 ≤ sampling ∧ sampling ≤ 60 ∧ (300000 : Int) % sampling = 0 then
    some ['T', '3']
  else if 1 ≤ sampling ∧ sampling ≤ 16 ∧ (100000 : Int) % sampling = 0 then
    some ['T', '1']
  else none

/-- Source: the tile-size dictionary `{'T6': 600000, 'T3': 300000, 'T1': 100000}`
used in `Equi7Grid.get_tilesize`; every key the module produces is present. -/
def tile_size_of (tilecode : PyStr) : Nat :=
  if tilecode = ['T', '6'] then 600000
  else if tilecode = ['T', '3'] then 300000
  else if tilecode = ['T', '1'] then 100000
  else 0

/-- Source: `Equi7Grid.get_tilesize`. -/
def get_tilesize (sampling : Int) : Option Nat :=
  (get_tiletype sampling).map tile_size_of

/-- Source: `Equi7Grid.encode_sampling`. For `tile_names_in_m = false` and
sampling at least 1000, the source builds the token out of characters 0 and 2
of `str(sampling / 1000.0)`; for the four-digit samplings arising in this
grid (every supported sampling is at most 6000) that string reads
`"<thousands digit>.<hundreds digit>..."`, so those characters are the
thousands and the hundreds digit, which is how the token is embedded here. -/
def encode_sampling (sampling : Nat) (tile_names_in_m : Bool) : PyStr :=
  if tile_names_in_m then rjust3 (decimalDigits sampling)
  else if sampling ≤ 999 then rjust3 (decimalDigits sampling)
  else [Nat.digitChar (sampling / 1000), 'K', Nat.digitChar (sampling / 100 % 10)]

/-- Source: `Equi7Grid.decode_sampling`. The length-3 check, the 'K'
dispatch on the middle character and the per-character `int()` conversions
are verbatim; a failing conversion or bad length raises (`none`). -/
def decode_sampling (sampling_str : PyStr) (tile_names_in_m : Bool) : Option Int :=
  if tile_names_in_m then pyInt? sampling_str
  else
    match sampling_str with
    | [c0, c1, c2] =>
        if c1 = 'K' then
          (charDigit? c0).bind fun a =>
            (charDigit? c2).map fun b => ((a : Int) * 1000 + (b : Int) * 100)
        else pyInt? [c0, c1, c2]
    | _ => none

/-- Core parameter record (`TPSCoreProperty` of the pytileproj framework)
as visible to this module: subgrid tag, sampling, tile type and tile sizes,
and the metres-vs-kilometres naming flag. -/
structure TPSCoreProperty where
  tag : PyStr
  sampling : Nat
  tiletype : PyStr
  tile_xsize_m : Nat
  tile_ysize_m : Nat
  tile_names_in_m : Bool
deriving DecidableEq

/-- Modelled from the spec: the core record carried by
`Equi7Grid(sampling, tile_names_in_m).subgrids[tag].tilesys.core`.
`Equi7Grid.__init__` (in the source) rejects samplings outside
`_static_sampling`; the external pytileproj base classes then fill
`tiletype` and the tile sizes from the source's `get_tiletype` and
`get_tilesize`, and `Equi7Subgrid.__init__` re-tags a copy of the core
with the subgrid acronym. -/
def equi7grid_subgrid_core (sampling : Nat) (tile_names_in_m : Bool) (tag : PyStr) :
    Option TPSCoreProperty :=
  if sampling ∈ _static_sampling then
    (get_tiletype (sampling : Int)).map fun tc =>
      ⟨tag, sampling, tc, tile_size_of tc, tile_size_of tc, tile_names_in_m⟩
  else none

/-- Decoded tile-name tuple returned by `decode_tilename`. -/
structure TileInfo where
  subgrid_id : PyStr
  sampling : Int
  tile_size_m : Nat
  llx : Int
  lly : Int
  tilecode : PyStr
deriving DecidableEq

/-- Source: `Equi7TilingSystem.decode_tilename`. Every `raise ValueError`,
the `IndexError` raised by `tilename.split('_')[1]` on a name without an
underscore, and every failing `int()` conversion are embedded as `none`.
`tf` is the alignment unit `self.core.tile_ysize_m // 100000`. -/
def decode_tilename (core : TPSCoreProperty) (tilename : PyStr) : Option TileInfo :=
  if tilename.length = 10 then
    (charDigit? (tilename.getLastD ' ')).bind fun d =>
      if d * 100000 ≠ core.tile_xsize_m then none
      else (pyInt? ((tilename.drop 1).take 3)).bind fun llx =>
        if llx % ((core.tile_ysize_m / 100000 : Nat) : Int) ≠ 0 then none
        else (pyInt? ((tilename.drop 5).take 3)).bind fun lly =>
          if lly % ((core.tile_ysize_m / 100000 : Nat) : Int) ≠ 0 then none
          else if tilename.drop 8 ≠ core.tiletype then none
          else some ⟨core.tag, (core.sampling : Int), d * 100000,
                     llx * 100000, lly * 100000, tilename.drop 8⟩
  else
    if tilename.take 2 ≠ core.tag then none
    else
      (decode_sampling ((splitOnChar 'M' (tilename.drop 2)).headD [])
          core.tile_names_in_m).bind fun sampling =>
        ((splitOnChar '_' tilename)[1]?).bind fun remaining =>
          if sampling ≠ (core.sampling : Int) then none
          else (charDigit? (remaining.getLastD ' ')).bind fun d =>
            if d * 100000 ≠ core.tile_xsize_m then none
            else (pyInt? ((remaining.drop 1).take 3)).bind fun llx =>
              if llx % ((core.tile_ysize_m / 100000 : Nat) : Int) ≠ 0 then none
              else (pyInt? ((remaining.drop 5).take 3)).bind fun lly =>
                if lly % ((core.tile_ysize_m / 100000 : Nat) : Int) ≠ 0 then none
                else if remaining.drop (remaining.length - 2) ≠ core.tiletype then none
                else some ⟨tilename.take 2, sampling, d * 100000,
                           llx * 100000, lly * 100000,
                           remaining.drop (remaining.length - 2)⟩

/-- Source: `Equi7TilingSystem.check_tilename` — decodes the name,
propagating any decode failure, and returns `True` otherwise; the initial
`check = False` assignment is dead code. -/
def check_tilename (core : TPSCoreProperty) (tilename : PyStr) : Option Bool :=
  match decode_tilename core tilename with
  | none => none
  | some _ => some true

/-- Source: `Equi7TilingSystem.tilename2short` — validates the name via
`check_tilename` (propagating its failure) and strips the first 7
characters of a 17-character name. -/
def tilename2short (core : TPSCoreProperty) (tilename : PyStr) : Option PyStr :=
  match check_tilename core tilename with
  | none => none
  | some _ => some (if tilename.length = 17 then tilename.drop 7 else tilename)

/-- Source: `Equi7TilingSystem.encode_tilename` — formats
`"{}{}M_E{:03d}N{:03d}{}"` and converts to short form on request (which
re-validates the freshly built long name and can therefore fail). -/
def encode_tilename (core : TPSCoreProperty) (llx lly : Int) (sampling : Nat)
    (tilecode : PyStr) (shortform : Bool) : Option PyStr :=
  let tilename := core.tag ++ encode_sampling sampling core.tile_names_in_m
      ++ 'M' :: '_' :: 'E' :: pyFormat03d (llx.fdiv 100000)
      ++ 'N' :: pyFormat03d (lly.fdiv 100000) ++ tilecode
  if shortform then tilename2short core tilename else some tilename

/-- Source: the sampling-selection block of
`Equi7TilingSystem.get_congruent_tiles_from_tilename` (lines 893-905):
an explicit `target_sampling` wins; otherwise the fixed representative
sampling 10 / 20 / 500 is chosen for 'T1' / 'T3' / 'T6', any other
`target_tiletype` raises the tilecode `ValueError` (msg3); with neither
argument the Python code reads an unassigned local and raises. -/
def congruent_sampling_choice (target_sampling : Option Nat)
    (target_tiletype : Option PyStr) : Option Nat :=
  match target_sampling, target_tiletype with
  | some ts, none => some ts
  | none, some tt =>
      if tt = ['T', '1'] then some 10
      else if tt = ['T', '3'] then some 20
      else if tt = ['T', '6'] then some 500
      else none
  | some ts, some _ => some ts
  | none, none => none

/-- Source: `Equi7TilingSystem.get_congruent_tiles_from_tilename`.
Short form is used exactly when no explicit `target_sampling` is given.
The target grid is `Equi7Grid(sampling=sampling)` — with the default
`tile_names_in_m = False` — and the lookup
`target_grid.subgrids[self.core.tag].tilesys` always succeeds because the
source grid's tag is a key of the same static dictionary, so it is embedded
as the construction of the target core for that tag. The larger-tile branch
is taken on the Python string comparison `target_tiletype >= src_tiletype`,
and the smaller-tile branch enumerates `itertools.product(range(n), range(n))`
with the first component outermost. -/
def get_congruent_tiles_from_tilename (core : TPSCoreProperty) (tilename : PyStr)
    (target_sampling : Option Nat) (target_tiletype : Option PyStr) :
    Option (List PyStr) :=
  let shortform := target_sampling.isNone
  (congruent_sampling_choice target_sampling target_tiletype).bind fun sampling =>
    (equi7grid_subgrid_core sampling false core.tag).bind fun tcore =>
      (decode_tilename core tilename).bind fun info =>
        if pyStrGe tcore.tiletype info.tilecode then
          (encode_tilename tcore
              ((info.llx.fdiv (tcore.tile_xsize_m : Int)) * (tcore.tile_xsize_m : Int))
              ((info.lly.fdiv (tcore.tile_xsize_m : Int)) * (tcore.tile_xsize_m : Int))
              sampling tcore.tiletype shortform).map fun name => [name]
        else
          ((List.range (info.tile_size_m / tcore.tile_xsize_m)).flatMap fun x =>
            (List.range (info.tile_size_m / tcore.tile_xsize_m)).map fun y => (x, y)).mapM
            fun p =>
              encode_tilename tcore
                (info.llx + (p.1 : Int) * (tcore.tile_xsize_m : Int))
                (info.lly + (p.2 : Int) * (tcore.tile_xsize_m : Int))
                sampling tcore.tiletype shortform

/-- Source: `Equi7TilingSystem.check_tile_covers_land`. The land set is the
static per-subgrid, per-class `coverland` set of short names
(`list_tiles_covering_land`), whose contents live in the packaged data file;
it is passed here as the explicit parameter `land`. When `check_tilename`
raises, the exception propagates; its `True` return leads to the membership
test of the shortened name (the `False` branch, which would fall through
returning Python `None`, is unreachable). -/
def check_tile_covers_land (core : TPSCoreProperty) (land : List PyStr)
    (tilename : PyStr) : Option Bool :=
  match check_tilename core tilename with
  | some true => (tilename2short core tilename).map fun s => land.contains s
  | _ => none

/-- Tile geometry parameters of an `Equi7Tile` as used by `xy2ij`: lower-left
corner, tile sizes and sampling, all taken from the tile's core. -/
structure TileParams where
  llx : Int
  lly : Int
  xsize : Nat
  ysize : Nat
  sampling : Nat
deriving DecidableEq

/-- Modelled from the spec: the GDAL-style geotransform of the external
pytileproj `Tile` base class in top-down row order — origin at the tile's
upper-left corner (lower-left plus the tile extent northwards), pixel size
equal to the sampling, negative y pixel size, no rotation. -/
def geotransform (t : TileParams) : ℚ × ℚ × ℚ × ℚ × ℚ × ℚ :=
  ((t.llx : ℚ), (t.sampling : ℚ), 0, ((t.lly : ℚ) + (t.ysize : ℚ)), 0, -(t.sampling : ℚ))

/-- Modelled from the spec: the geotransform of the external pytileproj
`Tile` base class in bottom-up (lower-left) row order — origin at the
tile's lower-left corner, positive y pixel size, no rotation. -/
def geotransform_lowerleft (t : TileParams) : ℚ × ℚ × ℚ × ℚ × ℚ × ℚ :=
  ((t.llx : ℚ), (t.sampling : ℚ), 0, (t.lly : ℚ), 0, (t.sampling : ℚ))

/-- Source: `Equi7Tile.xy2ij` — the affine-inversion formula applied to the
chosen geotransform, followed by `np.floor`. The float arithmetic of the
source is embedded as exact rational arithmetic. -/
def xy2ij (t : TileParams) (x y : ℚ) (lowerleft : Bool) : Int × Int :=
  let gt := if lowerleft then geotransform_lowerleft t else geotransform t
  let i : ℚ := -1 *
    (gt.2.2.1 * gt.2.2.2.1 - gt.1 * gt.2.2.2.2.2 + gt.2.2.2.2.2 * x - gt.2.2.1 * y) /
    (gt.2.2.1 * gt.2.2.2.2.1 - gt.2.1 * gt.2.2.2.2.2)
  let j : ℚ := -1 *
    (-1 * gt.2.1 * gt.2.2.2.1 + gt.1 * gt.2.2.2.2.1 - gt.2.2.2.2.1 * x + gt.2.1 * y) /
    (gt.2.2.1 * gt.2.2.2.2.1 - gt.2.1 * gt.2.2.2.2.2)
  (⌊i⌋, ⌊j⌋)

/- Theorems -/

/-- Helper: `charDigit?` inverts `Nat.digitChar` on decimal digits. -/
theorem charDigit?_digitChar (d : Nat) (h : d ≤ 9) :
    charDigit? (Nat.digitChar d) = some d := by
  interval_cases d <;> decide

/-- C2. Tile-class resolution contract: for every integer sampling,
`get_tiletype` returns 'T6' exactly when sampling lies in [64, 6000] and
600000 mod sampling = 0, 'T3' exactly when sampling lies in [20, 60] and
300000 mod sampling = 0, 'T1' exactly when sampling lies in [1, 16] and
100000 mod sampling = 0, and fails (unsupported-sampling error) exactly
when none of these three disjoint conditions holds. -/
theorem get_tiletype_contract (s : Int) :
    (get_tiletype s = some ['T', '6'] ↔
      (64 ≤ s ∧ s ≤ 6000 ∧ (600000 : Int) % s = 0)) ∧
    (get_tiletype s = some ['T', '3'] ↔
      (20 ≤ s ∧ s ≤ 60 ∧ (300000 : Int) % s = 0)) ∧
    (get_tiletype s = some ['T', '1'] ↔
      (1 ≤ s ∧ s ≤ 16 ∧ (100000 : Int) % s = 0)) ∧
    (get_tiletype s = none ↔
      ¬((64 ≤ s ∧ s ≤ 6000 ∧ (600000 : Int) % s = 0) ∨
        (20 ≤ s ∧ s ≤ 60 ∧ (300000 : Int) % s = 0) ∨
        (1 ≤ s ∧ s ≤ 16 ∧ (100000 : Int) % s = 0))) := by
  unfold get_tiletype
  split_ifs with h1 h2 h3
  · refine ⟨by simp [h1], ?_, ?_, by simp [h1]⟩
    · simp only [Option.some_inj]
      constructor
      · intro h; cases h
      · intro h; exfalso; omega
    · simp only [Option.some_inj]
      constructor
      · intro h; cases h
      · intro h; exfalso; omega
  · refine ⟨?_, by simp [h2], ?_, by simp [h2]⟩
    · simp only [Option.some_inj]
      constructor
      · intro h; cases h
      · intro h; exact absurd h h1
    · simp only [Option.some_inj]
      constructor
      · intro h; cases h
      · intro h; exfalso; omega
  · refine ⟨?_, ?_, by simp [h3], by simp [h1, h2, h3]⟩
    · simp only [Option.some_inj]
      constructor
      · intro h; cases h
      · intro h; exact absurd h h1
    · simp only [Option.some_inj]
      constructor
      · intro h; cases h
      · intro h; exact absurd h h2
  · exact ⟨⟨fun h => (by cases h), fun h => absurd h h1⟩,
      ⟨fun h => (by cases h), fun h => absurd h h2⟩,
      ⟨fun h => (by cases h), fun h => absurd h h3⟩,
      ⟨fun _ => (by tauto), fun _ => rfl⟩⟩

/-- C3. Enumeration/divisibility agreement: every sampling in
`_static_sampling` (including 125, 96, 48, 24) satisfies exactly one of the
three tile-class conditions of `get_tiletype`, so the unsupported-sampling
branch is unreachable for enumerated samplings and each maps to exactly one
tile class. -/
theorem static_sampling_exactly_one_class :
    ∀ s ∈ _static_sampling,
      ((get_tiletype (s : Int)).isSome = true) ∧
      ((64 ≤ (s : Int) ∧ (s : Int) ≤ 6000 ∧ (600000 : Int) % s = 0) ∧
         ¬(20 ≤ (s : Int) ∧ (s : Int) ≤ 60 ∧ (300000 : Int) % s = 0) ∧
         ¬(1 ≤ (s : Int) ∧ (s : Int) ≤ 16 ∧ (100000 : Int) % s = 0) ∨
       ¬(64 ≤ (s : Int) ∧ (s : Int) ≤ 6000 ∧ (600000 : Int) % s = 0) ∧
         (20 ≤ (s : Int) ∧ (s : Int) ≤ 60 ∧ (300000 : Int) % s = 0) ∧
         ¬(1 ≤ (s : Int) ∧ (s : Int) ≤ 16 ∧ (100000 : Int) % s = 0) ∨
       ¬(64 ≤ (s : Int) ∧ (s : Int) ≤ 6000 ∧ (600000 : Int) % s = 0) ∧
         ¬(20 ≤ (s : Int) ∧ (s : Int) ≤ 60 ∧ (300000 : Int) % s = 0) ∧
         (1 ≤ (s : Int) ∧ (s : Int) ≤ 16 ∧ (100000 : Int) % s = 0)) := by
  decide

/-- Witness for C3 at the enumerated sampling 125. -/
theorem static_sampling_exactly_one_class_witness :
    (get_tiletype (125 : Int)).isSome = true :=
  (static_sampling_exactly_one_class 125 (by decide)).1

/-- C7. Sampling-token round-trip: in metres form every supported sampling
round-trips through `encode_sampling`/`decode_sampling`; with
`tile_names_in_m = false` every supported sampling below 1000 round-trips,
and a sampling of 1000 or more (kilometre form) round-trips exactly when it
is fully described by its thousands and hundreds digits, while 1234 decodes
back to 1200 and so does not round-trip. -/
theorem sampling_round_trip :
    (∀ s ∈ _static_sampling,
        decode_sampling (encode_sampling s true) true = some (s : Int)) ∧
    (∀ s ∈ _static_sampling, s ≤ 999 →
        decode_sampling (encode_sampling s false) false = some (s : Int)) ∧
    (∀ s : Nat, 1000 ≤ s → s ≤ 9999 →
        (decode_sampling (encode_sampling s false) false = some (s : Int) ↔
          s % 100 = 0)) ∧
    decode_sampling (encode_sampling 1234 false) false = some (1200 : Int) := by
  refine ⟨by decide, by decide, ?_, by decide⟩
  intro s h1 h2
  have hs : ¬ s ≤ 999 := by omega
  have henc : encode_sampling s false =
      [Nat.digitChar (s / 1000), 'K', Nat.digitChar (s / 100 % 10)] := by
    simp [encode_sampling, hs]
  rw [henc]
  have h10 : s / 1000 ≤ 9 := by omega
  have h100 : s / 100 % 10 ≤ 9 := by omega
  have hdec : decode_sampling
      [Nat.digitChar (s / 1000), 'K', Nat.digitChar (s / 100 % 10)] false =
      some (((s / 1000 : Nat) : Int) * 1000 + ((s / 100 % 10 : Nat) : Int) * 100) := by
    simp only [decode_sampling, charDigit?_digitChar _ h10, charDigit?_digitChar _ h100]
    rfl
  rw [hdec]
  rw [Option.some_inj]
  constructor
  · intro h; omega
  · intro h; omega

/-- Witness for C7 at the supported sampling 500. -/
theorem sampling_round_trip_witness :
    decode_sampling (encode_sampling 500 false) false = some (500 : Int) :=
  sampling_round_trip.2.1 500 (by decide) (by decide)

/-- Helper: `Nat.digitChar` of a decimal digit is a digit character. -/
theorem digitChar_isDigit (d : Nat) (h : d ≤ 9) :
    (Nat.digitChar d).isDigit = true := by
  interval_cases d <;> decide

/-- Helper: code point of `Nat.digitChar` on decimal digits. -/
theorem digitChar_toNat (d : Nat) (h : d ≤ 9) :
    (Nat.digitChar d).toNat = 48 + d := by
  interval_cases d <;> decide

/-- Helper: a digit character is not a minus sign. -/
theorem isDigit_ne_minus (c : Char) (h : c.isDigit = true) : c ≠ '-' := by
  intro he; rw [he] at h; exact absurd h (by decide)

/-- Helper: a digit character is not the letter 'M'. -/
theorem isDigit_ne_M (c : Char) (h : c.isDigit = true) : c ≠ 'M' := by
  intro he; rw [he] at h; exact absurd h (by decide)

/-- Helper: a digit character is not an underscore. -/
theorem isDigit_ne_underscore (c : Char) (h : c.isDigit = true) : c ≠ '_' := by
  intro he; rw [he] at h; exact absurd h (by decide)

/-- Helper: splitting a string that does not contain the separator. -/
theorem splitOnChar_not_mem (c : Char) (l : PyStr) (h : c ∉ l) :
    splitOnChar c l = [l] := by
  induction l with
  | nil => rfl
  | cons x xs ih =>
      have hx : ¬ x = c := fun he => h (he ▸ List.mem_cons_self x xs)
      have hxs : c ∉ xs := fun hm => h (List.mem_cons_of_mem x hm)
      rw [splitOnChar, if_neg hx, ih hxs]

/-- Helper: splitting at the first separator occurrence. -/
theorem splitOnChar_append (c : Char) (l r : PyStr) (h : c ∉ l) :
    splitOnChar c (l ++ c :: r) = l :: splitOnChar c r := by
  induction l with
  | nil => simp [splitOnChar]
  | cons x xs ih =>
      have hx : ¬ x = c := fun he => h (he ▸ List.mem_cons_self x xs)
      have hxs : c ∉ xs := fun hm => h (List.mem_cons_of_mem x hm)
      rw [List.cons_append, splitOnChar, if_neg hx, ih hxs]

/-- Helper: `{:03d}` of a number up to 999 is its three decimal digits. -/
theorem rjust3_decimalDigits (n : Nat) (h : n ≤ 999) :
    rjust3 (decimalDigits n) =
      [Nat.digitChar (n / 100), Nat.digitChar (n / 10 % 10), Nat.digitChar (n % 10)] := by
  unfold decimalDigits
  split_ifs with h1 h2 h3 h4
  · have e1 : n / 100 = 0 := by omega
    have e2 : n / 10 % 10 = 0 := by omega
    have e3 : n % 10 = n := by omega
    rw [e1, e2, e3]; rfl
  · have e1 : n / 100 = 0 := by omega
    have e2 : n / 10 % 10 = n / 10 := by omega
    rw [e1, e2]; rfl
  · rfl
  · omega
  · omega

/-- Helper: `pyInt?` parses a three-digit string to its value. -/
theorem pyInt?_three_digits (a b c : Nat) (ha : a ≤ 9) (hb : b ≤ 9) (hc : c ≤ 9) :
    pyInt? [Nat.digitChar a, Nat.digitChar b, Nat.digitChar c] =
      some (((100 * a + 10 * b + c : Nat) : Int)) := by
  have h1 := digitChar_isDigit a ha
  have h2 := digitChar_isDigit b hb
  have h3 := digitChar_isDigit c hc
  unfold pyInt?
  rw [List.headD_cons, if_neg (isDigit_ne_minus _ h1)]
  rw [if_pos ⟨by simp, by simp [List.all_cons, h1, h2, h3]⟩]
  congr 1
  rw [Int.ofNat_inj]
  simp only [List.foldl_cons, List.foldl_nil]
  rw [digitChar_toNat a ha, digitChar_toNat b hb, digitChar_toNat c hc]
  omega

/-- Helper: the only tile codes `get_tiletype` can produce. -/
theorem get_tiletype_cases (s : Int) (tc : PyStr) (h : get_tiletype s = some tc) :
    tc = ['T', '6'] ∨ tc = ['T', '3'] ∨ tc = ['T', '1'] := by
  unfold get_tiletype at h
  split_ifs at h <;> simp_all

/-- Helper: a character that is not a digit differs from every digit character. -/
theorem ne_digitChar_of_not_isDigit (c : Char) (d : Nat) (hd : d ≤ 9)
    (hc : ¬ c.isDigit = true) : c ≠ Nat.digitChar d :=
  fun he => hc (he ▸ digitChar_isDigit d hd)

/-- Helper: for every supported sampling and either naming mode, the sampling
token decodes back to the sampling, contains neither 'M' nor '_', and is 3 or
4 characters long. -/
theorem encode_sampling_token_facts :
    ∀ s ∈ _static_sampling, ∀ m : Bool,
      decode_sampling (encode_sampling s m) m = some (s : Int) ∧
      'M' ∉ encode_sampling s m ∧ '_' ∉ encode_sampling s m ∧
      ((encode_sampling s m).length = 3 ∨ (encode_sampling s m).length = 4) := by
  decide

/-- Helper: short-branch decoding of a well-formed short tile name built from
three-digit east/north fields and a valid tile code. -/
theorem decode_short_encoded (tag : PyStr) (s : Nat) (m : Bool) (tc : PyStr) (ex ny : Nat)
    (htc : tc = ['T', '6'] ∨ tc = ['T', '3'] ∨ tc = ['T', '1'])
    (hexb : ex ≤ 999) (hnyb : ny ≤ 999)
    (hexa : ex % (tile_size_of tc / 100000) = 0)
    (hnya : ny % (tile_size_of tc / 100000) = 0) :
    decode_tilename ⟨tag, s, tc, tile_size_of tc, tile_size_of tc, m⟩
      ('E' :: Nat.digitChar (ex / 100) :: Nat.digitChar (ex / 10 % 10) :: Nat.digitChar (ex % 10) ::
       'N' :: Nat.digitChar (ny / 100) :: Nat.digitChar (ny / 10 % 10) :: Nat.digitChar (ny % 10) :: tc) =
      some ⟨tag, (s : Int), tile_size_of tc, (ex : Int) * 100000, (ny : Int) * 100000, tc⟩ := by
  have hx := pyInt?_three_digits (ex / 100) (ex / 10 % 10) (ex % 10)
    (by omega) (by omega) (by omega)
  have hy := pyInt?_three_digits (ny / 100) (ny / 10 % 10) (ny % 10)
    (by omega) (by omega) (by omega)
  rw [show 100 * (ex / 100) + 10 * (ex / 10 % 10) + ex % 10 = ex by omega] at hx
  rw [show 100 * (ny / 100) + 10 * (ny / 10 % 10) + ny % 10 = ny by omega] at hy
  obtain hc | hc | hc := htc <;> subst hc
  · have htsz : tile_size_of ['T', '6'] = 600000 := by decide
    rw [htsz] at hexa hnya ⊢
    have hdx : (6 : Int) ∣ (ex : Int) := by omega
    have hdy : (6 : Int) ∣ (ny : Int) := by omega
    unfold decode_tilename
    norm_num [hx, hy, show charDigit? '6' = some 6 from rfl]
    simp [hdx, hdy]
  · have htsz : tile_size_of ['T', '3'] = 300000 := by decide
    rw [htsz] at hexa hnya ⊢
    have hdx : (3 : Int) ∣ (ex : Int) := by omega
    have hdy : (3 : Int) ∣ (ny : Int) := by omega
    unfold decode_tilename
    norm_num [hx, hy, show charDigit? '3' = some 3 from rfl]
    simp [hdx, hdy]
  · have htsz : tile_size_of ['T', '1'] = 100000 := by decide
    rw [htsz] at hexa hnya ⊢
    unfold decode_tilename
    norm_num [hx, hy, show charDigit? '1' = some 1 from rfl]

/-- Helper: long-branch decoding of a well-formed long tile name: a
2-character subgrid tag, a sampling token that decodes to the grid sampling,
the 'M' and '_' separators, three-digit east/north fields and a valid tile
code. -/
theorem decode_long_encoded (tag token : PyStr) (s : Nat) (m : Bool) (tc : PyStr) (ex ny : Nat)
    (htag2 : tag.length = 2) (htagu : '_' ∉ tag)
    (htokM : 'M' ∉ token) (htokU : '_' ∉ token)
    (htokdec : decode_sampling token m = some (s : Int))
    (htok34 : token.length = 3 ∨ token.length = 4)
    (htc : tc = ['T', '6'] ∨ tc = ['T', '3'] ∨ tc = ['T', '1'])
    (hexb : ex ≤ 999) (hnyb : ny ≤ 999)
    (hexa : ex % (tile_size_of tc / 100000) = 0)
    (hnya : ny % (tile_size_of tc / 100000) = 0) :
    decode_tilename ⟨tag, s, tc, tile_size_of tc, tile_size_of tc, m⟩
      (tag ++ token ++ 'M' :: '_' :: 'E' ::
        Nat.digitChar (ex / 100) :: Nat.digitChar (ex / 10 % 10) :: Nat.digitChar (ex % 10) ::
        'N' :: Nat.digitChar (ny / 100) :: Nat.digitChar (ny / 10 % 10) :: Nat.digitChar (ny % 10) :: tc) =
      some ⟨tag, (s : Int), tile_size_of tc, (ex : Int) * 100000, (ny : Int) * 100000, tc⟩ := by
  have hx := pyInt?_three_digits (ex / 100) (ex / 10 % 10) (ex % 10)
    (by omega) (by omega) (by omega)
  have hy := pyInt?_three_digits (ny / 100) (ny / 10 % 10) (ny % 10)
    (by omega) (by omega) (by omega)
  rw [show 100 * (ex / 100) + 10 * (ex / 10 % 10) + ex % 10 = ex by omega] at hx
  rw [show 100 * (ny / 100) + 10 * (ny / 10 % 10) + ny % 10 = ny by omega] at hy
  have htcU : '_' ∉ tc := by rcases htc with h | h | h <;> subst h <;> decide
  have htcM : 'M' ∉ tc := by rcases htc with h | h | h <;> subst h <;> decide
  have htclen : tc.length = 2 := by rcases htc with h | h | h <;> subst h <;> decide
  have hund : ∀ d : Nat, d ≤ 9 → ¬ (('_' : Char) = Nat.digitChar d) :=
    fun d hd he => isDigit_ne_underscore _ (digitChar_isDigit d hd) he.symm
  have hrestU : ('_' : Char) ∉ ('E' ::
      Nat.digitChar (ex / 100) :: Nat.digitChar (ex / 10 % 10) :: Nat.digitChar (ex % 10) ::
      'N' :: Nat.digitChar (ny / 100) :: Nat.digitChar (ny / 10 % 10) :: Nat.digitChar (ny % 10) :: tc) := by
    intro hmem
    simp only [List.mem_cons] at hmem
    rcases hmem with h | h | h | h | h | h | h | h | h
    · exact absurd h (by decide)
    · exact hund _ (by omega) h
    · exact hund _ (by omega) h
    · exact hund _ (by omega) h
    · exact absurd h (by decide)
    · exact hund _ (by omega) h
    · exact hund _ (by omega) h
    · exact hund _ (by omega) h
    · exact htcU h
  have hpreU : ('_' : Char) ∉ (tag ++ (token ++ ['M'])) := by
    intro hmem
    rcases List.mem_append.mp hmem with h | h
    · exact htagu h
    · rcases List.mem_append.mp h with h | h
      · exact htokU h
      · simp at h
  have htake : (tag ++ token ++ 'M' :: '_' :: 'E' ::
      Nat.digitChar (ex / 100) :: Nat.digitChar (ex / 10 % 10) :: Nat.digitChar (ex % 10) ::
      'N' :: Nat.digitChar (ny / 100) :: Nat.digitChar (ny / 10 % 10) :: Nat.digitChar (ny % 10) :: tc).take 2
      = tag := by
    rw [List.append_assoc]
    exact List.take_left' htag2
  have hdrop : (tag ++ token ++ 'M' :: '_' :: 'E' ::
      Nat.digitChar (ex / 100) :: Nat.digitChar (ex / 10 % 10) :: Nat.digitChar (ex % 10) ::
      'N' :: Nat.digitChar (ny / 100) :: Nat.digitChar (ny / 10 % 10) :: Nat.digitChar (ny % 10) :: tc).drop 2
      = token ++ 'M' :: '_' :: 'E' ::
      Nat.digitChar (ex / 100) :: Nat.digitChar (ex / 10 % 10) :: Nat.digitChar (ex % 10) ::
      'N' :: Nat.digitChar (ny / 100) :: Nat.digitChar (ny / 10 % 10) :: Nat.digitChar (ny % 10) :: tc := by
    rw [List.append_assoc]
    exact List.drop_left' htag2
  have hlen10 : ¬ ((tag ++ token ++ 'M' :: '_' :: 'E' ::
      Nat.digitChar (ex / 100) :: Nat.digitChar (ex / 10 % 10) :: Nat.digitChar (ex % 10) ::
      'N' :: Nat.digitChar (ny / 100) :: Nat.digitChar (ny / 10 % 10) :: Nat.digitChar (ny % 10) :: tc).length
      = 10) := by
    simp only [List.length_append, List.length_cons, htag2, htclen]
    omega
  have hshape : (tag ++ token ++ 'M' :: '_' :: 'E' ::
      Nat.digitChar (ex / 100) :: Nat.digitChar (ex / 10 % 10) :: Nat.digitChar (ex % 10) ::
      'N' :: Nat.digitChar (ny / 100) :: Nat.digitChar (ny / 10 % 10) :: Nat.digitChar (ny % 10) :: tc)
      = (tag ++ (token ++ ['M'])) ++ '_' :: 'E' ::
      Nat.digitChar (ex / 100) :: Nat.digitChar (ex / 10 % 10) :: Nat.digitChar (ex % 10) ::
      'N' :: Nat.digitChar (ny / 100) :: Nat.digitChar (ny / 10 % 10) :: Nat.digitChar (ny % 10) :: tc := by
    simp
  have hsplitU : splitOnChar '_' (tag ++ token ++ 'M' :: '_' :: 'E' ::
      Nat.digitChar (ex / 100) :: Nat.digitChar (ex / 10 % 10) :: Nat.digitChar (ex % 10) ::
      'N' :: Nat.digitChar (ny / 100) :: Nat.digitChar (ny / 10 % 10) :: Nat.digitChar (ny % 10) :: tc)
      = (tag ++ (token ++ ['M'])) :: [('E' ::
      Nat.digitChar (ex / 100) :: Nat.digitChar (ex / 10 % 10) :: Nat.digitChar (ex % 10) ::
      'N' :: Nat.digitChar (ny / 100) :: Nat.digitChar (ny / 10 % 10) :: Nat.digitChar (ny % 10) :: tc)] := by
    rw [hshape, splitOnChar_append _ _ _ hpreU, splitOnChar_not_mem _ _ hrestU]
  have hsplitM : splitOnChar 'M' (token ++ 'M' :: '_' :: 'E' ::
      Nat.digitChar (ex / 100) :: Nat.digitChar (ex / 10 % 10) :: Nat.digitChar (ex % 10) ::
      'N' :: Nat.digitChar (ny / 100) :: Nat.digitChar (ny / 10 % 10) :: Nat.digitChar (ny % 10) :: tc)
      = token :: splitOnChar 'M' ('_' :: 'E' ::
      Nat.digitChar (ex / 100) :: Nat.digitChar (ex / 10 % 10) :: Nat.digitChar (ex % 10) ::
      'N' :: Nat.digitChar (ny / 100) :: Nat.digitChar (ny / 10 % 10) :: Nat.digitChar (ny % 10) :: tc) :=
    splitOnChar_append _ _ _ htokM
  unfold decode_tilename
  rw [if_neg hlen10, htake, if_neg (fun hne => hne rfl), hdrop, hsplitM, List.headD_cons,
    htokdec, Option.some_bind, hsplitU]
  rw [show ((tag ++ (token ++ ['M'])) :: [('E' ::
      Nat.digitChar (ex / 100) :: Nat.digitChar (ex / 10 % 10) :: Nat.digitChar (ex % 10) ::
      'N' :: Nat.digitChar (ny / 100) :: Nat.digitChar (ny / 10 % 10) :: Nat.digitChar (ny % 10) :: tc)])[1]?
      = some ('E' ::
      Nat.digitChar (ex / 100) :: Nat.digitChar (ex / 10 % 10) :: Nat.digitChar (ex % 10) ::
      'N' :: Nat.digitChar (ny / 100) :: Nat.digitChar (ny / 10 % 10) :: Nat.digitChar (ny % 10) :: tc) from rfl,
    Option.some_bind]
  rw [if_neg (fun hne => hne rfl)]
  obtain hc | hc | hc := htc <;> subst hc
  · have htsz : tile_size_of ['T', '6'] = 600000 := by decide
    rw [htsz] at hexa hnya ⊢
    have hdx : (6 : Int) ∣ (ex : Int) := by omega
    have hdy : (6 : Int) ∣ (ny : Int) := by omega
    norm_num [hx, hy, show charDigit? '6' = some 6 from rfl]
    simp [hdx, hdy]
  · have htsz : tile_size_of ['T', '3'] = 300000 := by decide
    rw [htsz] at hexa hnya ⊢
    have hdx : (3 : Int) ∣ (ex : Int) := by omega
    have hdy : (3 : Int) ∣ (ny : Int) := by omega
    norm_num [hx, hy, show charDigit? '3' = some 3 from rfl]
    simp [hdx, hdy]
  · have htsz : tile_size_of ['T', '1'] = 100000 := by decide
    rw [htsz] at hexa hnya ⊢
    norm_num [hx, hy, show charDigit? '1' = some 1 from rfl]

/-- Helper: `{:03d}` formatting of a cast natural number up to 999. -/
theorem pyFormat03d_natCast (n : Nat) (hn : n ≤ 999) :
    pyFormat03d ((n : Nat) : Int) =
      [Nat.digitChar (n / 100), Nat.digitChar (n / 10 % 10), Nat.digitChar (n % 10)] := by
  unfold pyFormat03d
  rw [if_pos (by positivity), Int.toNat_natCast]
  exact rjust3_decimalDigits n hn

/-- Helper: floor division cancels the 100000 factor of a corner coordinate. -/
theorem fdiv_corner (n : Nat) : ((n : Int) * 100000).fdiv 100000 = (n : Int) := by
  rw [Int.fdiv_eq_tdiv (by positivity) (by norm_num)]
  exact Int.mul_tdiv_cancel _ (by norm_num)

/-- Helper: the long name produced by `encode_tilename` without short form. -/
theorem encode_tilename_longname (core : TPSCoreProperty) (ex ny : Nat) (sampling : Nat)
    (tc : PyStr) (hex : ex ≤ 999) (hny : ny ≤ 999) :
    encode_tilename core ((ex : Int) * 100000) ((ny : Int) * 100000) sampling tc false =
      some (core.tag ++ encode_sampling sampling core.tile_names_in_m ++ 'M' :: '_' :: 'E' ::
        Nat.digitChar (ex / 100) :: Nat.digitChar (ex / 10 % 10) :: Nat.digitChar (ex % 10) ::
        'N' :: Nat.digitChar (ny / 100) :: Nat.digitChar (ny / 10 % 10) :: Nat.digitChar (ny % 10) :: tc) := by
  unfold encode_tilename
  rw [fdiv_corner ex, fdiv_corner ny, pyFormat03d_natCast ex hex, pyFormat03d_natCast ny hny]
  simp

/-- Helper: the name handed to `tilename2short` by `encode_tilename` in
short-form mode. -/
theorem encode_tilename_shortform (core : TPSCoreProperty) (ex ny : Nat) (sampling : Nat)
    (tc : PyStr) (hex : ex ≤ 999) (hny : ny ≤ 999) :
    encode_tilename core ((ex : Int) * 100000) ((ny : Int) * 100000) sampling tc true =
      tilename2short core (core.tag ++ encode_sampling sampling core.tile_names_in_m ++ 'M' :: '_' :: 'E' ::
        Nat.digitChar (ex / 100) :: Nat.digitChar (ex / 10 % 10) :: Nat.digitChar (ex % 10) ::
        'N' :: Nat.digitChar (ny / 100) :: Nat.digitChar (ny / 10 % 10) :: Nat.digitChar (ny % 10) :: tc) := by
  unfold encode_tilename
  rw [fdiv_corner ex, fdiv_corner ny, pyFormat03d_natCast ex hex, pyFormat03d_natCast ny hny]
  congr 1
  simp

/-- Helper: `tilename2short` on a name that decodes successfully. -/
theorem tilename2short_of_decode (core : TPSCoreProperty) (t : PyStr) (r : TileInfo)
    (h : decode_tilename core t = some r) :
    tilename2short core t = some (if t.length = 17 then t.drop 7 else t) := by
  unfold tilename2short check_tilename
  rw [h]

/-- C1. Tile-name round-trip: for every grid core constructed with a
supported sampling, every 2-character underscore-free subgrid tag, and every
lower-left corner that is a multiple of the tile extent with its east and
north fields (in 100 km units) in [0, 999], encoding with the grid's own
sampling and tile class and then decoding returns exactly the tuple
(subgrid tag, sampling, tile size, llx, lly, tile class) — both when the
name is requested in long form and when it is requested in short form. -/
theorem tilename_round_trip (s : Nat) (m : Bool) (tag : PyStr) (core : TPSCoreProperty)
    (hcore : equi7grid_subgrid_core s m tag = some core)
    (htag2 : tag.length = 2) (htagu : '_' ∉ tag)
    (llx lly : Int)
    (hx0 : 0 ≤ llx) (hy0 : 0 ≤ lly)
    (hxb : llx / 100000 ≤ 999) (hyb : lly / 100000 ≤ 999)
    (hxa : llx % (core.tile_xsize_m : Int) = 0) (hya : lly % (core.tile_xsize_m : Int) = 0) :
    ∀ form : Bool, ∃ name : PyStr,
      encode_tilename core llx lly s core.tiletype form = some name ∧
      decode_tilename core name =
        some ⟨tag, (s : Int), core.tile_xsize_m, llx, lly, core.tiletype⟩ := by
  obtain ⟨tag0, s0, tc, xs, ys, m0⟩ := core
  unfold equi7grid_subgrid_core at hcore
  by_cases hs : s ∈ _static_sampling
  swap
  · rw [if_neg hs] at hcore; cases hcore
  rw [if_pos hs] at hcore
  rcases htt : get_tiletype ((s : Nat) : Int) with _ | tc'
  · rw [htt] at hcore; cases hcore
  rw [htt] at hcore
  simp only [Option.map_some', Option.map_some, Option.some_inj,
    TPSCoreProperty.mk.injEq] at hcore
  obtain ⟨h1, h2, h3, h4, h5, h6⟩ := hcore
  subst h1; subst h2; subst h4; subst h5; subst h6
  subst h3
  simp only at hxa hya ⊢
  have htc3 := get_tiletype_cases _ _ htt
  have hE : tile_size_of tc' = 600000 ∨ tile_size_of tc' = 300000 ∨ tile_size_of tc' = 100000 := by
    rcases htc3 with h | h | h <;> subst h
    · exact Or.inl (by decide)
    · exact Or.inr (Or.inl (by decide))
    · exact Or.inr (Or.inr (by decide))
  have h100x : llx % 100000 = 0 := by rcases hE with h | h | h <;> rw [h] at hxa <;> omega
  have h100y : lly % 100000 = 0 := by rcases hE with h | h | h <;> rw [h] at hya <;> omega
  have hexeq : llx = (((llx / 100000).toNat : Nat) : Int) * 100000 := by omega
  have hnyeq : lly = (((lly / 100000).toNat : Nat) : Int) * 100000 := by omega
  have hexb : (llx / 100000).toNat ≤ 999 := by omega
  have hnyb : (lly / 100000).toNat ≤ 999 := by omega
  have hexa : (llx / 100000).toNat % (tile_size_of tc' / 100000) = 0 := by
    rcases hE with h | h | h <;> rw [h] at hxa ⊢ <;> omega
  have hnya : (lly / 100000).toNat % (tile_size_of tc' / 100000) = 0 := by
    rcases hE with h | h | h <;> rw [h] at hya ⊢ <;> omega
  obtain ⟨htokdec, htokM, htokU, htok34⟩ := encode_sampling_token_facts s hs m
  have hlong := decode_long_encoded tag (encode_sampling s m) s m tc'
    (llx / 100000).toNat (lly / 100000).toNat htag2 htagu htokM htokU htokdec htok34
    htc3 hexb hnyb hexa hnya
  rw [← hexeq, ← hnyeq] at hlong
  intro form
  cases form
  · -- long form
    refine ⟨_, ?_, hlong⟩
    have h := encode_tilename_longname ⟨tag, s, tc', tile_size_of tc', tile_size_of tc', m⟩
      (llx / 100000).toNat (lly / 100000).toNat s tc' hexb hnyb
    rw [← hexeq, ← hnyeq] at h
    exact h
  · -- short form
    have h := encode_tilename_shortform ⟨tag, s, tc', tile_size_of tc', tile_size_of tc', m⟩
      (llx / 100000).toNat (lly / 100000).toNat s tc' hexb hnyb
    rw [← hexeq, ← hnyeq] at h
    simp only at h
    rw [tilename2short_of_decode _ _ _ hlong] at h
    have htclen : tc'.length = 2 := by
      rcases htc3 with hc | hc | hc <;> subst hc <;> decide
    have hnamelen : (tag ++ encode_sampling s m ++ 'M' :: '_' :: 'E' ::
        Nat.digitChar ((llx / 100000).toNat / 100) ::
        Nat.digitChar ((llx / 100000).toNat / 10 % 10) ::
        Nat.digitChar ((llx / 100000).toNat % 10) ::
        'N' :: Nat.digitChar ((lly / 100000).toNat / 100) ::
        Nat.digitChar ((lly / 100000).toNat / 10 % 10) ::
        Nat.digitChar ((lly / 100000).toNat % 10) :: tc').length
        = 14 + (encode_sampling s m).length := by
      simp [htag2, htclen]
      omega
    rcases htok34 with htok3 | htok4
    · -- 3-character token: the 17-character name is shortened
      have h17 : (tag ++ encode_sampling s m ++ 'M' :: '_' :: 'E' ::
          Nat.digitChar ((llx / 100000).toNat / 100) ::
          Nat.digitChar ((llx / 100000).toNat / 10 % 10) ::
          Nat.digitChar ((llx / 100000).toNat % 10) ::
          'N' :: Nat.digitChar ((lly / 100000).toNat / 100) ::
          Nat.digitChar ((lly / 100000).toNat / 10 % 10) ::
          Nat.digitChar ((lly / 100000).toNat % 10) :: tc').length = 17 := by
        rw [hnamelen, htok3]
      rw [if_pos h17] at h
      have hdrop7 : (tag ++ encode_sampling s m ++ 'M' :: '_' :: 'E' ::
          Nat.digitChar ((llx / 100000).toNat / 100) ::
          Nat.digitChar ((llx / 100000).toNat / 10 % 10) ::
          Nat.digitChar ((llx / 100000).toNat % 10) ::
          'N' :: Nat.digitChar ((lly / 100000).toNat / 100) ::
          Nat.digitChar ((lly / 100000).toNat / 10 % 10) ::
          Nat.digitChar ((lly / 100000).toNat % 10) :: tc').drop 7
          = 'E' :: Nat.digitChar ((llx / 100000).toNat / 100) ::
          Nat.digitChar ((llx / 100000).toNat / 10 % 10) ::
          Nat.digitChar ((llx / 100000).toNat % 10) ::
          'N' :: Nat.digitChar ((lly / 100000).toNat / 100) ::
          Nat.digitChar ((lly / 100000).toNat / 10 % 10) ::
          Nat.digitChar ((lly / 100000).toNat % 10) :: tc' := by
        have hshape2 : (tag ++ encode_sampling s m ++ 'M' :: '_' :: 'E' ::
            Nat.digitChar ((llx / 100000).toNat / 100) ::
            Nat.digitChar ((llx / 100000).toNat / 10 % 10) ::
            Nat.digitChar ((llx / 100000).toNat % 10) ::
            'N' :: Nat.digitChar ((lly / 100000).toNat / 100) ::
            Nat.digitChar ((lly / 100000).toNat / 10 % 10) ::
            Nat.digitChar ((lly / 100000).toNat % 10) :: tc')
            = (tag ++ (encode_sampling s m ++ ['M', '_'])) ++ 'E' ::
            Nat.digitChar ((llx / 100000).toNat / 100) ::
            Nat.digitChar ((llx / 100000).toNat / 10 % 10) ::
            Nat.digitChar ((llx / 100000).toNat % 10) ::
            'N' :: Nat.digitChar ((lly / 100000).toNat / 100) ::
            Nat.digitChar ((lly / 100000).toNat / 10 % 10) ::
            Nat.digitChar ((lly / 100000).toNat % 10) :: tc' := by
          simp
        rw [hshape2]
        exact List.drop_left' (by simp [htag2, htok3])
      rw [hdrop7] at h
      refine ⟨_, h, ?_⟩
      have hshort := decode_short_encoded tag s m tc'
        (llx / 100000).toNat (lly / 100000).toNat htc3 hexb hnyb hexa hnya
      rw [← hexeq, ← hnyeq] at hshort
      exact hshort
    · -- 4-character token: the 18-character name is returned unchanged
      have h18 : ¬ ((tag ++ encode_sampling s m ++ 'M' :: '_' :: 'E' ::
          Nat.digitChar ((llx / 100000).toNat / 100) ::
          Nat.digitChar ((llx / 100000).toNat / 10 % 10) ::
          Nat.digitChar ((llx / 100000).toNat % 10) ::
          'N' :: Nat.digitChar ((lly / 100000).toNat / 100) ::
          Nat.digitChar ((lly / 100000).toNat / 10 % 10) ::
          Nat.digitChar ((lly / 100000).toNat % 10) :: tc').length = 17) := by
        rw [hnamelen, htok4]
        omega
      rw [if_neg h18] at h
      exact ⟨_, h, hlong⟩

/-- Witness for C1: the EU grid at sampling 500 round-trips the corner
(1200000, 1800000) in long form. -/
theorem tilename_round_trip_witness :
    ∃ name : PyStr,
      encode_tilename ⟨['E', 'U'], 500, ['T', '6'], 600000, 600000, false⟩
        1200000 1800000 500 ['T', '6'] false = some name ∧
      decode_tilename ⟨['E', 'U'], 500, ['T', '6'], 600000, 600000, false⟩ name =
        some ⟨['E', 'U'], (500 : Int), 600000, 1200000, 1800000, ['T', '6']⟩ :=
  tilename_round_trip 500 false ['E', 'U']
    ⟨['E', 'U'], 500, ['T', '6'], 600000, 600000, false⟩
    (by decide) (by decide) (by decide) 1200000 1800000
    (by decide) (by decide) (by decide) (by decide) (by decide) (by decide) false

/-- C4 counterexample: the short form of the valid 17-character name
"EU500M_E012N018T6" has 10 characters, not 11 as the claim states. -/
theorem tilename2short_not_eleven :
    ∃ r : PyStr,
      tilename2short ⟨['E', 'U'], 500, ['T', '6'], 600000, 600000, false⟩
        ['E', 'U', '5', '0', '0', 'M', '_', 'E', '0', '1', '2', 'N', '0', '1', '8', 'T', '6'] =
        some r ∧ ¬ r.length = 11 := by decide

/-- C4 (amended). Short-form conversion: for every tile name accepted by
`decode_tilename`, a 17-character long-form name is shortened to the
10-character name obtained by dropping the 7-character
`<tag><sampling token>M_` prefix, and a 10-character short-form name is
returned unchanged. -/
theorem tilename2short_contract (core : TPSCoreProperty) (t : PyStr) (r : TileInfo)
    (h : decode_tilename core t = some r) :
    (t.length = 17 → tilename2short core t = some (t.drop 7) ∧ (t.drop 7).length = 10) ∧
    (t.length = 10 → tilename2short core t = some t) := by
  constructor
  · intro h17
    rw [tilename2short_of_decode _ _ _ h, if_pos h17]
    refine ⟨rfl, ?_⟩
    simp [h17]
  · intro h10
    rw [tilename2short_of_decode _ _ _ h, if_neg (by omega)]

/-- Witness for C4 at the name "EU500M_E012N018T6". -/
theorem tilename2short_contract_witness :
    tilename2short ⟨['E', 'U'], 500, ['T', '6'], 600000, 600000, false⟩
      ['E', 'U', '5', '0', '0', 'M', '_', 'E', '0', '1', '2', 'N', '0', '1', '8', 'T', '6'] =
      some ['E', '0', '1', '2', 'N', '0', '1', '8', 'T', '6'] :=
  ((tilename2short_contract ⟨['E', 'U'], 500, ['T', '6'], 600000, 600000, false⟩
      ['E', 'U', '5', '0', '0', 'M', '_', 'E', '0', '1', '2', 'N', '0', '1', '8', 'T', '6']
      ⟨['E', 'U'], (500 : Int), 600000, 1200000, 1800000, ['T', '6']⟩
      (by decide)).1 (by decide)).1

/-- Helper: a corner whose 100 km field is a multiple of the alignment unit
is a multiple of the tile extent. -/
theorem corner_aligned (tsz : Nat) (v : Int)
    (hE : tsz = (tsz / 100000) * 100000)
    (ha : v % ((tsz / 100000 : Nat) : Int) = 0) :
    v * 100000 % ((tsz : Nat) : Int) = 0 := by
  have hdvd : ((tsz / 100000 : Nat) : Int) ∣ v := Int.dvd_of_emod_eq_zero ha
  have h2 : (((tsz / 100000 : Nat) : Int) * 100000) ∣ (v * 100000) :=
    mul_dvd_mul_right hdvd 100000
  have hcast : ((tsz : Nat) : Int) = ((tsz / 100000 : Nat) : Int) * 100000 := by
    exact_mod_cast hE
  rw [hcast]
  exact Int.emod_eq_zero_of_dvd h2

/-- C5. Alignment rejection: a grid core built from a supported sampling
never decodes a tile name to a corner that is not a multiple of the tile
extent — every successful decode returns aligned corners, so a name whose
east or north field (in 100 km units) is not a multiple of the extent
divided by 100000 fails; in particular the short-form name "E011N018T6"
fails on a T6 grid because 11 is not a multiple of 6. -/
theorem decode_alignment (s : Nat) (m : Bool) (tag : PyStr) (core : TPSCoreProperty)
    (hcore : equi7grid_subgrid_core s m tag = some core) :
    (∀ t : PyStr, ∀ r : TileInfo, decode_tilename core t = some r →
        r.llx % (core.tile_xsize_m : Int) = 0 ∧ r.lly % (core.tile_xsize_m : Int) = 0) ∧
    decode_tilename ⟨['E', 'U'], 500, ['T', '6'], 600000, 600000, false⟩
      ['E', '0', '1', '1', 'N', '0', '1', '8', 'T', '6'] = none := by
  refine ⟨?_, by decide⟩
  intro t r h
  obtain ⟨tag0, s0, tc, xs, ys, m0⟩ := core
  unfold equi7grid_subgrid_core at hcore
  by_cases hs : s ∈ _static_sampling
  swap
  · rw [if_neg hs] at hcore; cases hcore
  rw [if_pos hs] at hcore
  rcases htt : get_tiletype ((s : Nat) : Int) with _ | tc'
  · rw [htt] at hcore; cases hcore
  rw [htt] at hcore
  simp only [Option.map_some', Option.map_some, Option.some_inj,
    TPSCoreProperty.mk.injEq] at hcore
  obtain ⟨h1, h2, h3, h4, h5, h6⟩ := hcore
  subst h1; subst h2; subst h4; subst h5; subst h6
  subst h3
  simp only at h ⊢
  have hE : tile_size_of tc' = (tile_size_of tc' / 100000) * 100000 := by
    rcases get_tiletype_cases _ _ htt with hc | hc | hc <;> subst hc <;> decide
  unfold decode_tilename at h
  simp only at h
  by_cases h10 : t.length = 10
  · rw [if_pos h10] at h
    rw [Option.bind_eq_some] at h
    obtain ⟨d, hd, h⟩ := h
    by_cases hsz : d * 100000 ≠ tile_size_of tc'
    · rw [if_pos hsz] at h; cases h
    rw [if_neg hsz] at h
    rw [Option.bind_eq_some] at h
    obtain ⟨llx0, hllx, h⟩ := h
    by_cases ha1 : llx0 % ((tile_size_of tc' / 100000 : Nat) : Int) ≠ 0
    · rw [if_pos ha1] at h; cases h
    rw [if_neg ha1] at h
    rw [Option.bind_eq_some] at h
    obtain ⟨lly0, hlly, h⟩ := h
    by_cases ha2 : lly0 % ((tile_size_of tc' / 100000 : Nat) : Int) ≠ 0
    · rw [if_pos ha2] at h; cases h
    rw [if_neg ha2] at h
    by_cases htcc : t.drop 8 ≠ tc'
    · rw [if_pos htcc] at h; cases h
    rw [if_neg htcc] at h
    rw [Option.some_inj] at h
    subst h
    push_neg at ha1 ha2
    exact ⟨corner_aligned _ _ hE ha1, corner_aligned _ _ hE ha2⟩
  · rw [if_neg h10] at h
    by_cases htg : t.take 2 ≠ tag
    · rw [if_pos htg] at h; cases h
    rw [if_neg htg] at h
    rw [Option.bind_eq_some] at h
    obtain ⟨smp, hsmp, h⟩ := h
    rw [Option.bind_eq_some] at h
    obtain ⟨rem, hrem, h⟩ := h
    by_cases hss : smp ≠ ((s : Nat) : Int)
    · rw [if_pos hss] at h; cases h
    rw [if_neg hss] at h
    rw [Option.bind_eq_some] at h
    obtain ⟨d, hd, h⟩ := h
    by_cases hsz : d * 100000 ≠ tile_size_of tc'
    · rw [if_pos hsz] at h; cases h
    rw [if_neg hsz] at h
    rw [Option.bind_eq_some] at h
    obtain ⟨llx0, hllx, h⟩ := h
    by_cases ha1 : llx0 % ((tile_size_of tc' / 100000 : Nat) : Int) ≠ 0
    · rw [if_pos ha1] at h; cases h
    rw [if_neg ha1] at h
    rw [Option.bind_eq_some] at h
    obtain ⟨lly0, hlly, h⟩ := h
    by_cases ha2 : lly0 % ((tile_size_of tc' / 100000 : Nat) : Int) ≠ 0
    · rw [if_pos ha2] at h; cases h
    rw [if_neg ha2] at h
    by_cases htcc : rem.drop (rem.length - 2) ≠ tc'
    · rw [if_pos htcc] at h; cases h
    rw [if_neg htcc] at h
    rw [Option.some_inj] at h
    subst h
    push_neg at ha1 ha2
    exact ⟨corner_aligned _ _ hE ha1, corner_aligned _ _ hE ha2⟩

/-- Witness for C5: on the EU grid at sampling 500 the aligned name
"E012N018T6" decodes with corners that are multiples of 600000. -/
theorem decode_alignment_witness :
    decode_tilename ⟨['E', 'U'], 500, ['T', '6'], 600000, 600000, false⟩
      ['E', '0', '1', '1', 'N', '0', '1', '8', 'T', '6'] = none :=
  (decode_alignment 500 false ['E', 'U']
    ⟨['E', 'U'], 500, ['T', '6'], 600000, 600000, false⟩ (by decide)).2

/-- Helper: what a successfully constructed subgrid core looks like. -/
theorem equi7grid_subgrid_core_inv (s : Nat) (m : Bool) (tag : PyStr)
    (core : TPSCoreProperty) (h : equi7grid_subgrid_core s m tag = some core) :
    s ∈ _static_sampling ∧ core.tag = tag ∧ core.sampling = s ∧
    core.tile_names_in_m = m ∧ get_tiletype ((s : Nat) : Int) = some core.tiletype ∧
    core.tile_xsize_m = tile_size_of core.tiletype ∧
    core.tile_ysize_m = tile_size_of core.tiletype := by
  unfold equi7grid_subgrid_core at h
  by_cases hs : s ∈ _static_sampling
  swap
  · rw [if_neg hs] at h; cases h
  rw [if_pos hs] at h
  rcases htt : get_tiletype ((s : Nat) : Int) with _ | tc'
  · rw [htt] at h; cases h
  rw [htt] at h
  simp only [Option.map_some', Option.map_some, Option.some_inj] at h
  subst h
  exact ⟨hs, rfl, rfl, rfl, rfl, rfl, rfl⟩

/-- Helper: structural facts about every successful decode: the returned
subgrid id, sampling, tile size and tile code are the core's, and the
corners are 100000-multiples whose 100 km fields are multiples of the
alignment unit. -/
theorem decode_tilename_inv (core : TPSCoreProperty) (t : PyStr) (r : TileInfo)
    (h : decode_tilename core t = some r) :
    r.subgrid_id = core.tag ∧ r.sampling = (core.sampling : Int) ∧
    r.tile_size_m = core.tile_xsize_m ∧ r.tilecode = core.tiletype ∧
    (∃ a : Int, r.llx = a * 100000 ∧ a % ((core.tile_ysize_m / 100000 : Nat) : Int) = 0) ∧
    (∃ b : Int, r.lly = b * 100000 ∧ b % ((core.tile_ysize_m / 100000 : Nat) : Int) = 0) := by
  unfold decode_tilename at h
  by_cases h10 : t.length = 10
  · rw [if_pos h10] at h
    rw [Option.bind_eq_some] at h
    obtain ⟨d, hd, h⟩ := h
    by_cases hsz : d * 100000 ≠ core.tile_xsize_m
    · rw [if_pos hsz] at h; cases h
    rw [if_neg hsz] at h
    rw [Option.bind_eq_some] at h
    obtain ⟨llx0, hllx, h⟩ := h
    by_cases ha1 : llx0 % ((core.tile_ysize_m / 100000 : Nat) : Int) ≠ 0
    · rw [if_pos ha1] at h; cases h
    rw [if_neg ha1] at h
    rw [Option.bind_eq_some] at h
    obtain ⟨lly0, hlly, h⟩ := h
    by_cases ha2 : lly0 % ((core.tile_ysize_m / 100000 : Nat) : Int) ≠ 0
    · rw [if_pos ha2] at h; cases h
    rw [if_neg ha2] at h
    by_cases htcc : t.drop 8 ≠ core.tiletype
    · rw [if_pos htcc] at h; cases h
    rw [if_neg htcc] at h
    rw [Option.some_inj] at h
    subst h
    push_neg at hsz htcc ha1 ha2
    exact ⟨rfl, rfl, hsz, htcc, ⟨llx0, rfl, ha1⟩, ⟨lly0, rfl, ha2⟩⟩
  · rw [if_neg h10] at h
    by_cases htg : t.take 2 ≠ core.tag
    · rw [if_pos htg] at h; cases h
    rw [if_neg htg] at h
    rw [Option.bind_eq_some] at h
    obtain ⟨smp, hsmp, h⟩ := h
    rw [Option.bind_eq_some] at h
    obtain ⟨rem, hrem, h⟩ := h
    by_cases hss : smp ≠ (core.sampling : Int)
    · rw [if_pos hss] at h; cases h
    rw [if_neg hss] at h
    rw [Option.bind_eq_some] at h
    obtain ⟨d, hd, h⟩ := h
    by_cases hsz : d * 100000 ≠ core.tile_xsize_m
    · rw [if_pos hsz] at h; cases h
    rw [if_neg hsz] at h
    rw [Option.bind_eq_some] at h
    obtain ⟨llx0, hllx, h⟩ := h
    by_cases ha1 : llx0 % ((core.tile_ysize_m / 100000 : Nat) : Int) ≠ 0
    · rw [if_pos ha1] at h; cases h
    rw [if_neg ha1] at h
    rw [Option.bind_eq_some] at h
    obtain ⟨lly0, hlly, h⟩ := h
    by_cases ha2 : lly0 % ((core.tile_ysize_m / 100000 : Nat) : Int) ≠ 0
    · rw [if_pos ha2] at h; cases h
    rw [if_neg ha2] at h
    by_cases htcc : rem.drop (rem.length - 2) ≠ core.tiletype
    · rw [if_pos htcc] at h; cases h
    rw [if_neg htcc] at h
    rw [Option.some_inj] at h
    subst h
    push_neg at htg hss hsz htcc ha1 ha2
    exact ⟨htg, hss, hsz, htcc, ⟨llx0, rfl, ha1⟩, ⟨lly0, rfl, ha2⟩⟩

/-- Helper: on the three tile codes, the Python string comparison `>=`
agrees with the extent comparison. -/
theorem pyStrGe_codes (a b : PyStr)
    (ha : a = ['T', '6'] ∨ a = ['T', '3'] ∨ a = ['T', '1'])
    (hb : b = ['T', '6'] ∨ b = ['T', '3'] ∨ b = ['T', '1']) :
    (pyStrGe a b = true ↔ tile_size_of b ≤ tile_size_of a) := by
  rcases ha with h | h | h <;> subst h <;>
    rcases hb with h | h | h <;> subst h <;> decide

/-- Helper: `mapM` of a function that succeeds everywhere on the list. -/
theorem mapM_eq_some_map (l : List (Nat × Nat)) (f : Nat × Nat → Option PyStr)
    (g : Nat × Nat → PyStr) (h : ∀ a ∈ l, f a = some (g a)) :
    l.mapM f = some (l.map g) := by
  induction l with
  | nil => rfl
  | cons a as ih =>
      rw [List.mapM_cons, h a (List.mem_cons_self a as),
        ih (fun b hb => h b (List.mem_cons_of_mem a hb))]
      rfl

/-- Helper: the row-major pair enumeration of the family-tile loop is the
map of a single range. -/
theorem flatMap_range_pairs (mN n : Nat) :
    ((List.range mN).flatMap fun x => (List.range n).map fun y => ((x, y) : Nat × Nat)) =
      (List.range (mN * n)).map fun k => (k / n, k % n) := by
  induction mN with
  | zero => simp
  | succ m ih =>
      rw [List.range_succ, List.flatMap_append, ih, Nat.succ_mul, List.range_add]
      simp only [List.flatMap_cons, List.flatMap_nil, List.append_nil, List.map_map,
        List.map_append]
      congr 1
      apply List.map_congr_left
      intro t ht
      rw [List.mem_range] at ht
      have hn0 : 0 < n := lt_of_le_of_lt (Nat.zero_le t) ht
      have h1 : (m * n + t) / n = m := by
        rw [Nat.mul_comm m n, Nat.mul_add_div hn0, Nat.div_eq_of_lt ht]
        omega
      have h2 : (m * n + t) % n = t := by
        rw [Nat.mul_comm m n, Nat.mul_add_mod]
        exact Nat.mod_eq_of_lt ht
      simp [Function.comp, h1, h2]

/-- C6. Family-tile geometry: for a valid source tile on a valid grid and an
explicit target sampling, when the target tile extent is smaller than the
source extent the resolver returns exactly n×n names (n = source extent /
target extent) encoding the corners (src_llx + i·T, src_lly + j·T) for
i, j < n, enumerated with i outermost at position i·n + j; when the target
extent is larger than or equal to the source extent it returns exactly one
name encoding the corner (floor(src_llx/T)·T, floor(src_lly/T)·T); every
returned name is built for the source tile's subgrid tag and starts with
it. -/
theorem congruent_tiles_geometry (s ts : Nat) (m : Bool) (tag : PyStr)
    (core tcore : TPSCoreProperty) (tilename : PyStr) (info : TileInfo)
    (hcore : equi7grid_subgrid_core s m tag = some core)
    (htcore : equi7grid_subgrid_core ts false tag = some tcore)
    (htag2 : tag.length = 2)
    (hdec : decode_tilename core tilename = some info) :
    (tcore.tile_xsize_m < info.tile_size_m →
      ∃ l : List PyStr,
        get_congruent_tiles_from_tilename core tilename (some ts) none = some l ∧
        l.length = (info.tile_size_m / tcore.tile_xsize_m) *
          (info.tile_size_m / tcore.tile_xsize_m) ∧
        (∀ i j : Nat, i < info.tile_size_m / tcore.tile_xsize_m →
          j < info.tile_size_m / tcore.tile_xsize_m →
          ∃ name : PyStr,
            encode_tilename tcore
              (info.llx + (i : Int) * (tcore.tile_xsize_m : Int))
              (info.lly + (j : Int) * (tcore.tile_xsize_m : Int))
              ts tcore.tiletype false = some name ∧
            l[i * (info.tile_size_m / tcore.tile_xsize_m) + j]? = some name ∧
            name.take 2 = tag)) ∧
    (info.tile_size_m ≤ tcore.tile_xsize_m →
      ∃ name : PyStr,
        get_congruent_tiles_from_tilename core tilename (some ts) none = some [name] ∧
        encode_tilename tcore
          ((info.llx.fdiv (tcore.tile_xsize_m : Int)) * (tcore.tile_xsize_m : Int))
          ((info.lly.fdiv (tcore.tile_xsize_m : Int)) * (tcore.tile_xsize_m : Int))
          ts tcore.tiletype false = some name ∧
        name.take 2 = tag) := by
  obtain ⟨hs, hctag, hcs, hcm, hctt, hcx, hcy⟩ := equi7grid_subgrid_core_inv _ _ _ _ hcore
  obtain ⟨hts, httag, htsmp, htm, httt, htx, hty⟩ := equi7grid_subgrid_core_inv _ _ _ _ htcore
  obtain ⟨hi1, hi2, hi3, hi4, hi5, hi6⟩ := decode_tilename_inv _ _ _ hdec
  have hcc := get_tiletype_cases _ _ hctt
  have htcc := get_tiletype_cases _ _ httt
  have hunfold : get_congruent_tiles_from_tilename core tilename (some ts) none =
      (decode_tilename core tilename).bind fun info =>
        if pyStrGe tcore.tiletype info.tilecode then
          (encode_tilename tcore
              ((info.llx.fdiv (tcore.tile_xsize_m : Int)) * (tcore.tile_xsize_m : Int))
              ((info.lly.fdiv (tcore.tile_xsize_m : Int)) * (tcore.tile_xsize_m : Int))
              ts tcore.tiletype false).map fun name => [name]
        else
          ((List.range (info.tile_size_m / tcore.tile_xsize_m)).flatMap fun x =>
            (List.range (info.tile_size_m / tcore.tile_xsize_m)).map fun y => (x, y)).mapM
            fun p =>
              encode_tilename tcore
                (info.llx + (p.1 : Int) * (tcore.tile_xsize_m : Int))
                (info.lly + (p.2 : Int) * (tcore.tile_xsize_m : Int))
                ts tcore.tiletype false := by
    have h1 : get_congruent_tiles_from_tilename core tilename (some ts) none =
        (equi7grid_subgrid_core ts false core.tag).bind fun tc0 =>
          (decode_tilename core tilename).bind fun info =>
            if pyStrGe tc0.tiletype info.tilecode then
              (encode_tilename tc0
                  ((info.llx.fdiv (tc0.tile_xsize_m : Int)) * (tc0.tile_xsize_m : Int))
                  ((info.lly.fdiv (tc0.tile_xsize_m : Int)) * (tc0.tile_xsize_m : Int))
                  ts tc0.tiletype false).map fun name => [name]
            else
              ((List.range (info.tile_size_m / tc0.tile_xsize_m)).flatMap fun x =>
                (List.range (info.tile_size_m / tc0.tile_xsize_m)).map fun y => (x, y)).mapM
                fun p =>
                  encode_tilename tc0
                    (info.llx + (p.1 : Int) * (tc0.tile_xsize_m : Int))
                    (info.lly + (p.2 : Int) * (tc0.tile_xsize_m : Int))
                    ts tc0.tiletype false := rfl
    rw [h1, hctag, htcore, Option.some_bind]
  rw [hunfold, hdec, Option.some_bind]
  have hta : tcore.tiletype = ['T', '6'] ∨ tcore.tiletype = ['T', '3'] ∨
      tcore.tiletype = ['T', '1'] := htcc
  have htb : info.tilecode = ['T', '6'] ∨ info.tilecode = ['T', '3'] ∨
      info.tilecode = ['T', '1'] := hi4 ▸ hcc
  have hsizes : tile_size_of info.tilecode = info.tile_size_m := by
    rw [hi4, ← hcx, ← hi3]
  have htsize : tile_size_of tcore.tiletype = tcore.tile_xsize_m := htx.symm
  constructor
  · -- smaller target tiles
    intro hlt
    have hb : ¬ (pyStrGe tcore.tiletype info.tilecode = true) := by
      rw [pyStrGe_codes _ _ hta htb, hsizes, htsize]
      omega
    rw [if_neg hb]
    set n := info.tile_size_m / tcore.tile_xsize_m with hn
    have hmapM := mapM_eq_some_map
      ((List.range n).flatMap fun x => (List.range n).map fun y => (x, y))
      (fun p => encode_tilename tcore
        (info.llx + (p.1 : Int) * (tcore.tile_xsize_m : Int))
        (info.lly + (p.2 : Int) * (tcore.tile_xsize_m : Int))
        ts tcore.tiletype false)
      (fun p => tcore.tag ++ encode_sampling ts tcore.tile_names_in_m ++ 'M' :: '_' :: 'E' ::
        pyFormat03d ((info.llx + (p.1 : Int) * (tcore.tile_xsize_m : Int)).fdiv 100000) ++ 'N' ::
        pyFormat03d ((info.lly + (p.2 : Int) * (tcore.tile_xsize_m : Int)).fdiv 100000) ++
        tcore.tiletype)
      (fun p _ => rfl)
    refine ⟨_, hmapM, ?_, ?_⟩
    · rw [flatMap_range_pairs n n]
      simp
    · intro i j hi hj
      refine ⟨_, rfl, ?_, ?_⟩
      · rw [flatMap_range_pairs n n, List.map_map]
        have hk : i * n + j < n * n := by
          have h1 : i * n + j < (i + 1) * n := by
            rw [Nat.succ_mul]; omega
          have h2 : (i + 1) * n ≤ n * n := Nat.mul_le_mul_right n hi
          omega
        rw [List.getElem?_map, List.getElem?_range hk]
        have hn0 : 0 < n := by omega
        have hdix : (i * n + j) / n = i := by
          rw [Nat.mul_comm i n, Nat.mul_add_div hn0, Nat.div_eq_of_lt hj]
          omega
        have hmix : (i * n + j) % n = j := by
          rw [Nat.mul_comm i n, Nat.mul_add_mod]
          exact Nat.mod_eq_of_lt hj
        simp [Function.comp, hdix, hmix]
      · rw [httag]
        have hshape : tag ++ encode_sampling ts tcore.tile_names_in_m ++ 'M' :: '_' :: 'E' ::
            pyFormat03d ((info.llx + (i : Int) * (tcore.tile_xsize_m : Int)).fdiv 100000) ++ 'N' ::
            pyFormat03d ((info.lly + (j : Int) * (tcore.tile_xsize_m : Int)).fdiv 100000) ++
            tcore.tiletype
            = tag ++ (encode_sampling ts tcore.tile_names_in_m ++ 'M' :: '_' :: 'E' ::
            pyFormat03d ((info.llx + (i : Int) * (tcore.tile_xsize_m : Int)).fdiv 100000) ++ 'N' ::
            pyFormat03d ((info.lly + (j : Int) * (tcore.tile_xsize_m : Int)).fdiv 100000) ++
            tcore.tiletype) := by
          simp [List.append_assoc]
        rw [hshape]
        exact List.take_left' htag2
  · -- larger or equal target tiles
    intro hge
    have hb : pyStrGe tcore.tiletype info.tilecode = true := by
      rw [pyStrGe_codes _ _ hta htb, hsizes, htsize]
      omega
    rw [if_pos hb]
    refine ⟨_, rfl, rfl, ?_⟩
    rw [httag]
    have hshape : tag ++ encode_sampling ts tcore.tile_names_in_m ++ 'M' :: '_' :: 'E' ::
        pyFormat03d (((info.llx.fdiv (tcore.tile_xsize_m : Int)) *
          (tcore.tile_xsize_m : Int)).fdiv 100000) ++ 'N' ::
        pyFormat03d (((info.lly.fdiv (tcore.tile_xsize_m : Int)) *
          (tcore.tile_xsize_m : Int)).fdiv 100000) ++ tcore.tiletype
        = tag ++ (encode_sampling ts tcore.tile_names_in_m ++ 'M' :: '_' :: 'E' ::
        pyFormat03d (((info.llx.fdiv (tcore.tile_xsize_m : Int)) *
          (tcore.tile_xsize_m : Int)).fdiv 100000) ++ 'N' ::
        pyFormat03d (((info.lly.fdiv (tcore.tile_xsize_m : Int)) *
          (tcore.tile_xsize_m : Int)).fdiv 100000) ++ tcore.tiletype) := by
      simp [List.append_assoc]
    rw [hshape]
    exact List.take_left' htag2

/-- Helper: with kilometre naming disabled, every supported sampling has a
3-character token. -/
theorem encode_sampling_len3 :
    ∀ s ∈ _static_sampling, (encode_sampling s false).length = 3 := by
  decide

/-- Helper: what a successful `tilename2short` returns. -/
theorem tilename2short_eq_some (core : TPSCoreProperty) (t name : PyStr)
    (h : tilename2short core t = some name) :
    name = if t.length = 17 then t.drop 7 else t := by
  unfold tilename2short check_tilename at h
  cases hdec : decode_tilename core t with
  | none => rw [hdec] at h; cases h
  | some r =>
      rw [hdec] at h
      rw [Option.some_inj] at h
      exact h.symm

/-- Helper: `{:03d}` of a value in [0, 999] has exactly 3 characters. -/
theorem pyFormat03d_length (v : Int) (h0 : 0 ≤ v) (h9 : v ≤ 999) :
    (pyFormat03d v).length = 3 := by
  have hv : v = ((v.toNat : Nat) : Int) := by omega
  rw [hv, pyFormat03d_natCast v.toNat (by omega)]
  rfl

/-- Helper: floor division of a non-negative value by 100000. -/
theorem fdiv_nonneg_eq (a : Int) (ha : 0 ≤ a) (b : Int) (hb : 0 < b) :
    a.fdiv b = a / b := by
  rw [Int.fdiv_eq_tdiv ha (by omega), Int.tdiv_eq_ediv ha (by omega)]

/-- Helper: membership in a successful `mapM` image comes from a successful
application on a list member. -/
theorem mem_of_mapM_eq_some (as : List (Nat × Nat)) (f : Nat × Nat → Option PyStr)
    (l : List PyStr) (h : as.mapM f = some l) (name : PyStr) (hm : name ∈ l) :
    ∃ a ∈ as, f a = some name := by
  induction as generalizing l with
  | nil =>
      have h2 : some ([] : List PyStr) = some l := h
      rw [Option.some_inj] at h2
      subst h2
      cases hm
  | cons a as ih =>
      rw [List.mapM_cons] at h
      cases hfa : f a with
      | none =>
          rw [hfa] at h
          have h2 : (none : Option (List PyStr)) = some l := h
          cases h2
      | some b =>
          rw [hfa] at h
          cases hrest : as.mapM f with
          | none =>
              rw [hrest] at h
              have h2 : (none : Option (List PyStr)) = some l := h
              cases h2
          | some bs =>
              rw [hrest] at h
              have h2 : some (b :: bs) = some l := h
              rw [Option.some_inj] at h2
              subst h2
              rcases List.mem_cons.mp hm with hh | hh
              · exact ⟨a, List.mem_cons_self a as, hh ▸ hfa⟩
              · obtain ⟨c, hc1, hc2⟩ := ih bs hrest hh
                exact ⟨c, List.mem_cons_of_mem a hc1, hc2⟩

/-- Helper: the length and prefix of any name `encode_tilename` returns for
an in-range corner under a 2-character tag and a 3-character sampling
token. -/
theorem encode_name_facts (tcore : TPSCoreProperty) (smp : Nat) (sf : Bool)
    (cx cy : Int) (name : PyStr)
    (htag2 : tcore.tag.length = 2)
    (htok3 : (encode_sampling smp tcore.tile_names_in_m).length = 3)
    (hx0 : 0 ≤ cx.fdiv 100000) (hxb : cx.fdiv 100000 ≤ 999)
    (hy0 : 0 ≤ cy.fdiv 100000) (hyb : cy.fdiv 100000 ≤ 999)
    (henc : encode_tilename tcore cx cy smp tcore.tiletype sf = some name)
    (htclen : tcore.tiletype.length = 2) :
    name.length = (if sf then 10 else 17) ∧ (sf = false → name.take 2 = tcore.tag) := by
  have hplen : (tcore.tag ++ encode_sampling smp tcore.tile_names_in_m ++ 'M' :: '_' :: 'E' ::
      pyFormat03d (cx.fdiv 100000) ++ 'N' :: pyFormat03d (cy.fdiv 100000) ++
      tcore.tiletype).length = 17 := by
    simp only [List.length_append, List.length_cons, htag2, htok3, htclen,
      pyFormat03d_length _ hx0 hxb, pyFormat03d_length _ hy0 hyb]
  cases sf
  · -- long form requested
    unfold encode_tilename at henc
    rw [if_neg (by simp)] at henc
    rw [Option.some_inj] at henc
    subst henc
    refine ⟨by rw [if_neg (by simp)]; exact hplen, fun _ => ?_⟩
    have hshape : tcore.tag ++ encode_sampling smp tcore.tile_names_in_m ++ 'M' :: '_' :: 'E' ::
        pyFormat03d (cx.fdiv 100000) ++ 'N' :: pyFormat03d (cy.fdiv 100000) ++ tcore.tiletype
        = tcore.tag ++ (encode_sampling smp tcore.tile_names_in_m ++ 'M' :: '_' :: 'E' ::
        pyFormat03d (cx.fdiv 100000) ++ 'N' :: pyFormat03d (cy.fdiv 100000) ++ tcore.tiletype) := by
      simp [List.append_assoc]
    rw [hshape]
    exact List.take_left' htag2
  · -- short form requested
    unfold encode_tilename at henc
    rw [if_pos (by simp)] at henc
    have hname := tilename2short_eq_some _ _ _ henc
    rw [if_pos hplen] at hname
    subst hname
    refine ⟨?_, fun hff => by cases hff⟩
    rw [if_pos (by rfl)]
    rw [List.length_drop, hplen]

/-- Helper: every name in a successful family-tile result has the length of
its requested form (10 short, 17 long) and, in long form, starts with the
subgrid tag — for source tiles lying in the 1000×1000 100km name grid. -/
theorem congruent_names_aux (tag : PyStr) (smp : Nat) (sf : Bool)
    (core tcore : TPSCoreProperty) (info : TileInfo) (l : List PyStr)
    (htcore : equi7grid_subgrid_core smp false tag = some tcore)
    (htag2 : tag.length = 2)
    (hitc : info.tilecode = core.tiletype)
    (hisz : info.tile_size_m = core.tile_xsize_m)
    (hcsz : core.tile_xsize_m = tile_size_of core.tiletype)
    (hcc : core.tiletype = ['T', '6'] ∨ core.tiletype = ['T', '3'] ∨
      core.tiletype = ['T', '1'])
    (hx0 : 0 ≤ info.llx) (hxU : info.llx + (info.tile_size_m : Int) ≤ 100000000)
    (hy0 : 0 ≤ info.lly) (hyU : info.lly + (info.tile_size_m : Int) ≤ 100000000)
    (hres : (if pyStrGe tcore.tiletype info.tilecode then
          (encode_tilename tcore
              ((info.llx.fdiv (tcore.tile_xsize_m : Int)) * (tcore.tile_xsize_m : Int))
              ((info.lly.fdiv (tcore.tile_xsize_m : Int)) * (tcore.tile_xsize_m : Int))
              smp tcore.tiletype sf).map fun name => [name]
        else
          ((List.range (info.tile_size_m / tcore.tile_xsize_m)).flatMap fun x =>
            (List.range (info.tile_size_m / tcore.tile_xsize_m)).map fun y => (x, y)).mapM
            fun p =>
              encode_tilename tcore
                (info.llx + (p.1 : Int) * (tcore.tile_xsize_m : Int))
                (info.lly + (p.2 : Int) * (tcore.tile_xsize_m : Int))
                smp tcore.tiletype sf) = some l) :
    ∀ name ∈ l, name.length = (if sf then 10 else 17) ∧
      (sf = false → name.take 2 = tag) := by
  obtain ⟨hts, httag, htsmp, htm, httt, htx, hty⟩ := equi7grid_subgrid_core_inv _ _ _ _ htcore
  have htcc := get_tiletype_cases _ _ httt
  have htag2' : tcore.tag.length = 2 := by rw [httag]; exact htag2
  have htok3 : (encode_sampling smp tcore.tile_names_in_m).length = 3 := by
    rw [htm]; exact encode_sampling_len3 smp hts
  have htclen : tcore.tiletype.length = 2 := by
    rcases htcc with h | h | h <;> rw [h] <;> rfl
  have hT0 : 0 < tcore.tile_xsize_m := by
    rcases htcc with h | h | h <;> rw [htx, h] <;> decide
  have hT5 : 100000 ≤ tcore.tile_xsize_m := by
    rcases htcc with h | h | h <;> rw [htx, h] <;> decide
  have hTpos : (0 : Int) < (tcore.tile_xsize_m : Int) := by exact_mod_cast hT0
  intro name hname
  by_cases hge : pyStrGe tcore.tiletype info.tilecode = true
  · rw [if_pos hge] at hres
    rw [Option.map_eq_some'] at hres
    obtain ⟨name0, henc0, hl⟩ := hres
    subst hl
    have hname0 : name = name0 := List.mem_singleton.mp hname
    subst hname0
    have hfx : info.llx.fdiv (tcore.tile_xsize_m : Int) =
        info.llx / (tcore.tile_xsize_m : Int) := fdiv_nonneg_eq _ hx0 _ hTpos
    have hfy : info.lly.fdiv (tcore.tile_xsize_m : Int) =
        info.lly / (tcore.tile_xsize_m : Int) := fdiv_nonneg_eq _ hy0 _ hTpos
    rw [hfx, hfy] at henc0
    have hcor0x : 0 ≤ info.llx / (tcore.tile_xsize_m : Int) * (tcore.tile_xsize_m : Int) :=
      mul_nonneg (Int.ediv_nonneg hx0 (le_of_lt hTpos)) (le_of_lt hTpos)
    have hcorUx : info.llx / (tcore.tile_xsize_m : Int) * (tcore.tile_xsize_m : Int) ≤
        info.llx := Int.ediv_mul_le _ (by omega)
    have hcor0y : 0 ≤ info.lly / (tcore.tile_xsize_m : Int) * (tcore.tile_xsize_m : Int) :=
      mul_nonneg (Int.ediv_nonneg hy0 (le_of_lt hTpos)) (le_of_lt hTpos)
    have hcorUy : info.lly / (tcore.tile_xsize_m : Int) * (tcore.tile_xsize_m : Int) ≤
        info.lly := Int.ediv_mul_le _ (by omega)
    have hsrc1 : 0 < info.tile_size_m := by
      rcases hcc with h | h | h <;> rw [hisz, hcsz, h] <;> decide
    have hfldx : (info.llx / (tcore.tile_xsize_m : Int) * (tcore.tile_xsize_m : Int)).fdiv
        100000 = (info.llx / (tcore.tile_xsize_m : Int) * (tcore.tile_xsize_m : Int)) /
        100000 := fdiv_nonneg_eq _ hcor0x _ (by norm_num)
    have hfldy : (info.lly / (tcore.tile_xsize_m : Int) * (tcore.tile_xsize_m : Int)).fdiv
        100000 = (info.lly / (tcore.tile_xsize_m : Int) * (tcore.tile_xsize_m : Int)) /
        100000 := fdiv_nonneg_eq _ hcor0y _ (by norm_num)
    have hmx := Int.ediv_le_ediv (c := 100000) (by norm_num) hcorUx
    have hmy := Int.ediv_le_ediv (c := 100000) (by norm_num) hcorUy
    obtain ⟨hl1, hl2⟩ := encode_name_facts tcore smp sf _ _ name htag2' htok3
      (by rw [hfldx]; exact Int.ediv_nonneg hcor0x (by norm_num))
      (by rw [hfldx]; omega)
      (by rw [hfldy]; exact Int.ediv_nonneg hcor0y (by norm_num))
      (by rw [hfldy]; omega)
      henc0 htclen
    exact ⟨hl1, fun hsf => by rw [← httag]; exact hl2 hsf⟩
  · rw [if_neg hge] at hres
    obtain ⟨p, hp, hfp⟩ := mem_of_mapM_eq_some _ _ _ hres name hname
    simp only [List.mem_flatMap, List.mem_map, List.mem_range] at hp
    obtain ⟨a, ha, b, hb, hab⟩ := hp
    have hpa : p.1 = a := by rw [← hab]
    have hpb : p.2 = b := by rw [← hab]
    rw [hpa, hpb] at hfp
    have hnT : (info.tile_size_m / tcore.tile_xsize_m) * tcore.tile_xsize_m ≤
        info.tile_size_m := Nat.div_mul_le_self _ _
    have haT : a * tcore.tile_xsize_m + tcore.tile_xsize_m ≤ info.tile_size_m := by
      have h1 : (a + 1) * tcore.tile_xsize_m ≤
          (info.tile_size_m / tcore.tile_xsize_m) * tcore.tile_xsize_m :=
        Nat.mul_le_mul_right _ ha
      rw [Nat.succ_mul] at h1
      omega
    have hbT : b * tcore.tile_xsize_m + tcore.tile_xsize_m ≤ info.tile_size_m := by
      have h1 : (b + 1) * tcore.tile_xsize_m ≤
          (info.tile_size_m / tcore.tile_xsize_m) * tcore.tile_xsize_m :=
        Nat.mul_le_mul_right _ hb
      rw [Nat.succ_mul] at h1
      omega
    have hcastx : ((a * tcore.tile_xsize_m : Nat) : Int) =
        (a : Int) * (tcore.tile_xsize_m : Int) := by push_cast; ring
    have hcasty : ((b * tcore.tile_xsize_m : Nat) : Int) =
        (b : Int) * (tcore.tile_xsize_m : Int) := by push_cast; ring
    have hcx0 : 0 ≤ info.llx + (a : Int) * (tcore.tile_xsize_m : Int) := by
      rw [← hcastx]; omega
    have hcxU : info.llx + (a : Int) * (tcore.tile_xsize_m : Int) ≤ 99900000 := by
      rw [← hcastx]
      have h2 : ((a * tcore.tile_xsize_m : Nat) : Int) + (tcore.tile_xsize_m : Int) ≤
          (info.tile_size_m : Int) := by exact_mod_cast haT
      have h3 : (100000 : Int) ≤ (tcore.tile_xsize_m : Int) := by exact_mod_cast hT5
      omega
    have hcy0 : 0 ≤ info.lly + (b : Int) * (tcore.tile_xsize_m : Int) := by
      rw [← hcasty]; omega
    have hcyU : info.lly + (b : Int) * (tcore.tile_xsize_m : Int) ≤ 99900000 := by
      rw [← hcasty]
      have h2 : ((b * tcore.tile_xsize_m : Nat) : Int) + (tcore.tile_xsize_m : Int) ≤
          (info.tile_size_m : Int) := by exact_mod_cast hbT
      have h3 : (100000 : Int) ≤ (tcore.tile_xsize_m : Int) := by exact_mod_cast hT5
      omega
    have hfldx : (info.llx + (a : Int) * (tcore.tile_xsize_m : Int)).fdiv 100000 =
        (info.llx + (a : Int) * (tcore.tile_xsize_m : Int)) / 100000 :=
      fdiv_nonneg_eq _ hcx0 _ (by norm_num)
    have hfldy : (info.lly + (b : Int) * (tcore.tile_xsize_m : Int)).fdiv 100000 =
        (info.lly + (b : Int) * (tcore.tile_xsize_m : Int)) / 100000 :=
      fdiv_nonneg_eq _ hcy0 _ (by norm_num)
    obtain ⟨hl1, hl2⟩ := encode_name_facts tcore smp sf _ _ name htag2' htok3
      (by rw [hfldx]; exact Int.ediv_nonneg hcx0 (by norm_num))
      (by rw [hfldx]; omega)
      (by rw [hfldy]; exact Int.ediv_nonneg hcy0 (by norm_num))
      (by rw [hfldy]; omega)
      hfp htclen
    exact ⟨hl1, fun hsf => by rw [← httag]; exact hl2 hsf⟩

/-- C9. Family-tile name form and representative sampling: the
sampling-selection block picks the fixed representative sampling 10 for
'T1', 20 for 'T3' and 500 for 'T6' when only a target tile type is given,
and any other target tile type makes the resolver fail; with an explicit
target sampling every returned name is the 17-character long form starting
with the subgrid tag, and with only a target tile type every returned name
is the 10-character short form (for source tiles inside the 1000×1000
100 km naming grid). -/
theorem congruent_form_and_representative :
    (congruent_sampling_choice none (some ['T', '1']) = some 10 ∧
     congruent_sampling_choice none (some ['T', '3']) = some 20 ∧
     congruent_sampling_choice none (some ['T', '6']) = some 500) ∧
    (∀ tt : PyStr, ¬ tt = ['T', '1'] → ¬ tt = ['T', '3'] → ¬ tt = ['T', '6'] →
      ∀ (core : TPSCoreProperty) (t : PyStr),
        get_congruent_tiles_from_tilename core t none (some tt) = none) ∧
    (∀ (s ts : Nat) (m : Bool) (tag : PyStr) (core tcore : TPSCoreProperty)
        (tilename : PyStr) (info : TileInfo),
      equi7grid_subgrid_core s m tag = some core →
      equi7grid_subgrid_core ts false tag = some tcore →
      tag.length = 2 →
      decode_tilename core tilename = some info →
      0 ≤ info.llx → info.llx + (info.tile_size_m : Int) ≤ 100000000 →
      0 ≤ info.lly → info.lly + (info.tile_size_m : Int) ≤ 100000000 →
      ∀ l : List PyStr,
        get_congruent_tiles_from_tilename core tilename (some ts) none = some l →
        ∀ name ∈ l, name.length = 17 ∧ name.take 2 = tag) ∧
    (∀ (s rep : Nat) (m : Bool) (tag tt : PyStr) (core tcore : TPSCoreProperty)
        (tilename : PyStr) (info : TileInfo),
      congruent_sampling_choice none (some tt) = some rep →
      equi7grid_subgrid_core s m tag = some core →
      equi7grid_subgrid_core rep false tag = some tcore →
      tag.length = 2 →
      decode_tilename core tilename = some info →
      0 ≤ info.llx → info.llx + (info.tile_size_m : Int) ≤ 100000000 →
      0 ≤ info.lly → info.lly + (info.tile_size_m : Int) ≤ 100000000 →
      ∀ l : List PyStr,
        get_congruent_tiles_from_tilename core tilename none (some tt) = some l →
        ∀ name ∈ l, name.length = 10) := by
  refine ⟨⟨rfl, rfl, rfl⟩, ?_, ?_, ?_⟩
  · intro tt h1 h3 h6 core t
    have hch : congruent_sampling_choice none (some tt) = none := by
      show (if tt = ['T', '1'] then some 10
        else if tt = ['T', '3'] then some 20
        else if tt = ['T', '6'] then some 500 else none) = none
      rw [if_neg h1, if_neg h3, if_neg h6]
    have h0 : get_congruent_tiles_from_tilename core t none (some tt) =
        (congruent_sampling_choice none (some tt)).bind fun smp =>
          (equi7grid_subgrid_core smp false core.tag).bind fun tc0 =>
            (decode_tilename core t).bind fun info =>
              if pyStrGe tc0.tiletype info.tilecode then
                (encode_tilename tc0
                    ((info.llx.fdiv (tc0.tile_xsize_m : Int)) * (tc0.tile_xsize_m : Int))
                    ((info.lly.fdiv (tc0.tile_xsize_m : Int)) * (tc0.tile_xsize_m : Int))
                    smp tc0.tiletype true).map fun name => [name]
              else
                ((List.range (info.tile_size_m / tc0.tile_xsize_m)).flatMap fun x =>
                  (List.range (info.tile_size_m / tc0.tile_xsize_m)).map fun y => (x, y)).mapM
                  fun p =>
                    encode_tilename tc0
                      (info.llx + (p.1 : Int) * (tc0.tile_xsize_m : Int))
                      (info.lly + (p.2 : Int) * (tc0.tile_xsize_m : Int))
                      smp tc0.tiletype true := rfl
    rw [h0, hch]
    rfl
  · intro s ts m tag core tcore tilename info hcore htcore htag2 hdec hx0 hxU hy0 hyU l hres
    obtain ⟨hs, hctag, hcs, hcm, hctt, hcx, hcy⟩ := equi7grid_subgrid_core_inv _ _ _ _ hcore
    obtain ⟨hi1, hi2, hi3, hi4, hi5, hi6⟩ := decode_tilename_inv _ _ _ hdec
    have hcc := get_tiletype_cases _ _ hctt
    have h1 : get_congruent_tiles_from_tilename core tilename (some ts) none =
        (equi7grid_subgrid_core ts false core.tag).bind fun tc0 =>
          (decode_tilename core tilename).bind fun info =>
            if pyStrGe tc0.tiletype info.tilecode then
              (encode_tilename tc0
                  ((info.llx.fdiv (tc0.tile_xsize_m : Int)) * (tc0.tile_xsize_m : Int))
                  ((info.lly.fdiv (tc0.tile_xsize_m : Int)) * (tc0.tile_xsize_m : Int))
                  ts tc0.tiletype false).map fun name => [name]
            else
              ((List.range (info.tile_size_m / tc0.tile_xsize_m)).flatMap fun x =>
                (List.range (info.tile_size_m / tc0.tile_xsize_m)).map fun y => (x, y)).mapM
                fun p =>
                  encode_tilename tc0
                    (info.llx + (p.1 : Int) * (tc0.tile_xsize_m : Int))
                    (info.lly + (p.2 : Int) * (tc0.tile_xsize_m : Int))
                    ts tc0.tiletype false := rfl
    rw [h1, hctag, htcore, Option.some_bind, hdec, Option.some_bind] at hres
    intro name hname
    have := congruent_names_aux tag ts false core tcore info l htcore htag2
      hi4 hi3 hcx hcc hx0 hxU hy0 hyU hres name hname
    exact ⟨this.1, this.2 rfl⟩
  · intro s rep m tag tt core tcore tilename info hchoice hcore htcore htag2 hdec
      hx0 hxU hy0 hyU l hres
    obtain ⟨hs, hctag, hcs, hcm, hctt, hcx, hcy⟩ := equi7grid_subgrid_core_inv _ _ _ _ hcore
    obtain ⟨hi1, hi2, hi3, hi4, hi5, hi6⟩ := decode_tilename_inv _ _ _ hdec
    have hcc := get_tiletype_cases _ _ hctt
    have h1 : get_congruent_tiles_from_tilename core tilename none (some tt) =
        (congruent_sampling_choice none (some tt)).bind fun smp =>
          (equi7grid_subgrid_core smp false core.tag).bind fun tc0 =>
            (decode_tilename core tilename).bind fun info =>
              if pyStrGe tc0.tiletype info.tilecode then
                (encode_tilename tc0
                    ((info.llx.fdiv (tc0.tile_xsize_m : Int)) * (tc0.tile_xsize_m : Int))
                    ((info.lly.fdiv (tc0.tile_xsize_m : Int)) * (tc0.tile_xsize_m : Int))
                    smp tc0.tiletype true).map fun name => [name]
              else
                ((List.range (info.tile_size_m / tc0.tile_xsize_m)).flatMap fun x =>
                  (List.range (info.tile_size_m / tc0.tile_xsize_m)).map fun y => (x, y)).mapM
                  fun p =>
                    encode_tilename tc0
                      (info.llx + (p.1 : Int) * (tc0.tile_xsize_m : Int))
                      (info.lly + (p.2 : Int) * (tc0.tile_xsize_m : Int))
                      smp tc0.tiletype true := rfl
    rw [h1, hchoice, Option.some_bind, hctag, htcore, Option.some_bind, hdec,
      Option.some_bind] at hres
    intro name hname
    exact (congruent_names_aux tag rep true core tcore info l htcore htag2
      hi4 hi3 hcx hcc hx0 hxU hy0 hyU hres name hname).1

/-- Witness for C6: on the EU grid at sampling 500, the T1 family of tile
EU500M_E012N018T6 has 36 members. -/
theorem congruent_tiles_geometry_witness :
    ∃ l : List PyStr,
      get_congruent_tiles_from_tilename
        ⟨['E', 'U'], 500, ['T', '6'], 600000, 600000, false⟩
        ['E', 'U', '5', '0', '0', 'M', '_', 'E', '0', '1', '2', 'N', '0', '1', '8', 'T', '6']
        (some 10) none = some l ∧ l.length = 36 := by
  obtain ⟨l, hl1, hl2, hl3⟩ := (congruent_tiles_geometry 500 10 false ['E', 'U']
    ⟨['E', 'U'], 500, ['T', '6'], 600000, 600000, false⟩
    ⟨['E', 'U'], 10, ['T', '1'], 100000, 100000, false⟩
    ['E', 'U', '5', '0', '0', 'M', '_', 'E', '0', '1', '2', 'N', '0', '1', '8', 'T', '6']
    ⟨['E', 'U'], (500 : Int), 600000, 1200000, 1800000, ['T', '6']⟩
    (by decide) (by decide) (by decide) (by decide)).1 (by decide)
  exact ⟨l, hl1, hl2⟩

/-- Witness for C9: the T6 family query at explicit sampling 500 returns the
17-character long name of the single enclosing tile. -/
theorem congruent_form_and_representative_witness :
    (['E', 'U', '5', '0', '0', 'M', '_', 'E', '0', '1', '2', 'N', '0', '1', '8', 'T', '6']
      : PyStr).length = 17 ∧
    (['E', 'U', '5', '0', '0', 'M', '_', 'E', '0', '1', '2', 'N', '0', '1', '8', 'T', '6']
      : PyStr).take 2 = ['E', 'U'] :=
  congruent_form_and_representative.2.2.1 500 500 false ['E', 'U']
    ⟨['E', 'U'], 500, ['T', '6'], 600000, 600000, false⟩
    ⟨['E', 'U'], 500, ['T', '6'], 600000, 600000, false⟩
    ['E', 'U', '5', '0', '0', 'M', '_', 'E', '0', '1', '2', 'N', '0', '1', '8', 'T', '6']
    ⟨['E', 'U'], (500 : Int), 600000, 1200000, 1800000, ['T', '6']⟩
    (by decide) (by decide) (by decide) (by decide) (by decide) (by decide)
    (by decide) (by decide)
    [['E', 'U', '5', '0', '0', 'M', '_', 'E', '0', '1', '2', 'N', '0', '1', '8', 'T', '6']]
    (by decide)
    ['E', 'U', '5', '0', '0', 'M', '_', 'E', '0', '1', '2', 'N', '0', '1', '8', 'T', '6']
    (by decide)

/-- C10. check_tilename never returns False: for every core and string it
either fails (propagating the decode failure) or returns True, exactly when
decoding succeeds; consequently check_tile_covers_land either fails on an
invalid name or returns the membership of the shortened name in the
land-coverage set. -/
theorem check_tilename_contract (core : TPSCoreProperty) (t : PyStr) :
    (¬ check_tilename core t = some false) ∧
    (check_tilename core t = some true ↔ (decode_tilename core t).isSome = true) ∧
    ((decode_tilename core t).isSome = false →
      ∀ land : List PyStr, check_tile_covers_land core land t = none) ∧
    ((decode_tilename core t).isSome = true →
      ∀ land : List PyStr, ∃ short : PyStr,
        tilename2short core t = some short ∧
        check_tile_covers_land core land t = some (land.contains short)) := by
  cases h : decode_tilename core t with
  | none =>
      refine ⟨?_, ?_, ?_, ?_⟩
      · intro hc
        unfold check_tilename at hc
        rw [h] at hc
        cases hc
      · unfold check_tilename
        rw [h]
        simp
      · intro _ land
        unfold check_tile_covers_land check_tilename
        rw [h]
      · intro hyes
        simp at hyes
  | some r =>
      refine ⟨?_, ?_, ?_, ?_⟩
      · intro hc
        unfold check_tilename at hc
        rw [h] at hc
        rw [Option.some_inj] at hc
        cases hc
      · unfold check_tilename
        rw [h]
        simp
      · intro hno
        simp at hno
      · intro _ land
        refine ⟨if t.length = 17 then t.drop 7 else t, ?_, ?_⟩
        · unfold tilename2short check_tilename
          rw [h]
        · unfold check_tile_covers_land tilename2short check_tilename
          rw [h]
          rfl

/-- Witness for C10: land coverage of EU500M_E012N018T6 against a set
holding its short name. -/
theorem check_tilename_contract_witness :
    ∃ short : PyStr,
      tilename2short ⟨['E', 'U'], 500, ['T', '6'], 600000, 600000, false⟩
        ['E', 'U', '5', '0', '0', 'M', '_', 'E', '0', '1', '2', 'N', '0', '1', '8', 'T', '6'] =
        some short ∧
      check_tile_covers_land ⟨['E', 'U'], 500, ['T', '6'], 600000, 600000, false⟩
        [['E', '0', '1', '2', 'N', '0', '1', '8', 'T', '6']]
        ['E', 'U', '5', '0', '0', 'M', '_', 'E', '0', '1', '2', 'N', '0', '1', '8', 'T', '6'] =
        some (([['E', '0', '1', '2', 'N', '0', '1', '8', 'T', '6']] : List PyStr).contains short) :=
  (check_tilename_contract ⟨['E', 'U'], 500, ['T', '6'], 600000, 600000, false⟩
    ['E', 'U', '5', '0', '0', 'M', '_', 'E', '0', '1', '2', 'N', '0', '1', '8', 'T', '6']).2.2.2
    (by decide) [['E', '0', '1', '2', 'N', '0', '1', '8', 'T', '6']]

/-- C8 counterexample: for the tile with lower-left corner (600000, 0),
extent 600000 and sampling 500, the top-down row of the point (0, 0) is
1200 = floor((lly + extent - y)/sampling), not
floor((llx + extent - y)/sampling) = 2400 as the claim's formula states. -/
theorem xy2ij_row_not_llx :
    ¬ ((xy2ij ⟨600000, 0, 600000, 600000, 500⟩ 0 0 false).2 =
        ⌊(((600000 : ℚ) + (600000 : ℚ)) - 0) / (500 : ℚ)⌋) := by
  intro h
  have h1 : (xy2ij ⟨600000, 0, 600000, 600000, 500⟩ 0 0 false).2 = 1200 := by
    norm_num [xy2ij, geotransform]
  have h2 : ⌊(((600000 : ℚ) + (600000 : ℚ)) - 0) / (500 : ℚ)⌋ = 2400 := by
    norm_num
  rw [h1, h2] at h
  cases h

/-- C8 (amended). Pixel indexing floors: for every tile with lower-left
corner (llx, lly), extent and sampling, and every rational planar point
(x, y), `xy2ij` returns column floor((x - llx)/sampling), and row
floor((lly + ysize - y)/sampling) for top-down rows (lowerleft = false)
respectively floor((y - lly)/sampling) for bottom-up rows (lowerleft =
true) — always flooring, never rounding to nearest. -/
theorem xy2ij_floors (t : TileParams) (x y : ℚ) (hs : 0 < t.sampling) :
    xy2ij t x y false =
      (⌊(x - (t.llx : ℚ)) / (t.sampling : ℚ)⌋,
       ⌊(((t.lly : ℚ) + (t.ysize : ℚ)) - y) / (t.sampling : ℚ)⌋) ∧
    xy2ij t x y true =
      (⌊(x - (t.llx : ℚ)) / (t.sampling : ℚ)⌋,
       ⌊(y - (t.lly : ℚ)) / (t.sampling : ℚ)⌋) := by
  have hs' : ((t.sampling : ℚ)) ≠ 0 := by positivity
  constructor
  · unfold xy2ij geotransform
    simp only [Bool.false_eq_true, if_false, Prod.mk.injEq]
    constructor
    · congr 1
      field_simp
      ring
    · congr 1
      field_simp
      ring
  · unfold xy2ij geotransform_lowerleft
    simp only [if_true, Prod.mk.injEq]
    constructor
    · congr 1
      field_simp
      ring
    · congr 1
      field_simp
      ring

/-- Witness for C8: sampling 500, tile EU500M_E000N000T6 (lower-left (0,0),
extent 600000) and point (112345, 318210) give column 224 and row 563 in
top-down order. -/
theorem xy2ij_floors_witness :
    xy2ij ⟨0, 0, 600000, 600000, 500⟩ 112345 318210 false = (224, 563) := by
  have h := (xy2ij_floors ⟨0, 0, 600000, 600000, 500⟩ 112345 318210 (by norm_num)).1
  rw [h]
  norm_num
